import Mathlib

/-!
Verification development for the AI-Report-Assistant repository
(natural-language-to-report pipeline).

The JavaScript source is shallowly embedded:
* JS numbers are modelled as rationals (`ℚ`), with `NaN` represented
  either by a dedicated `Value.nan` constructor (as a stored value) or by
  `Option.none` (as the result of a numeric conversion);
* JS strings are Lean `String`s, operated on through their character lists;
  case conversion and character classes are modelled on the ASCII range,
  which is the range exercised by the source;
* JS objects (database rows, JSON payloads) are association lists from
  field names to values; absent fields (`undefined`) are `Option.none`;
* external collaborators (the database pool, the Mistral LLM transport,
  the `simple-statistics` correlation primitive, `Date` parsing/formatting,
  `Math.random` jitter, `JSON.parse`) are parameters of the embedded
  functions, so every theorem quantifies over their behaviour;
* fallible JS code (`throw`/`try`/`catch`) is modelled with `Except`,
  caught exceptions being consumed by the surrounding `match`.
-/

/-! ## Character and string utilities (ASCII model of the JS primitives) -/

/-- The whitespace characters recognised by `String.prototype.trim` and the
regex class `\s`, restricted to ASCII. -/
def isWsChar (c : Char) : Bool :=
  c = ' ' || c = '\t' || c = '\n' || c = '\r' || c = '\x0b' || c = '\x0c'

/-- The regex word-character class `\w` = `[A-Za-z0-9_]`. -/
def isWordChar (c : Char) : Bool :=
  ('a' ≤ c && c ≤ 'z') || ('A' ≤ c && c ≤ 'Z') || ('0' ≤ c && c ≤ '9') || c = '_'

/-- ASCII decimal digit. -/
def isDigitChar (c : Char) : Bool :=
  '0' ≤ c && c ≤ '9'

/-- The regex identifier class `[a-z0-9_]` under the `i` flag. -/
def isIdentChar (c : Char) : Bool :=
  ('a' ≤ Char.toLower c && Char.toLower c ≤ 'z') || isDigitChar c || c = '_'

/-- First character of a SQL identifier, `[a-z_]` under the `i` flag. -/
def isIdentStartChar (c : Char) : Bool :=
  ('a' ≤ Char.toLower c && Char.toLower c ≤ 'z') || c = '_'

/-- `String.prototype.toLowerCase`, ASCII model. -/
def lowerStr (s : String) : String :=
  String.mk (s.data.map Char.toLower)

/-- Case-insensitive prefix test: `kw` (given in lower case) is a prefix of
`s` up to `toLowerCase`. -/
def ciPrefixAt : List Char → List Char → Bool
  | [], _ => true
  | _ :: _, [] => false
  | k :: ks, c :: cs => (Char.toLower c = k) && ciPrefixAt ks cs

/-- Drop trailing characters satisfying `isWsChar` (the right half of
`String.prototype.trim`). -/
def dropTrailingWs : List Char → List Char
  | [] => []
  | c :: cs =>
    let r := dropTrailingWs cs
    if r = [] && isWsChar c then [] else c :: r

/-- `String.prototype.trim` on character lists. -/
def trimL (s : List Char) : List Char :=
  dropTrailingWs (s.dropWhile isWsChar)

/-- `String.prototype.trim`. -/
def trimS (s : String) : String :=
  String.mk (trimL s.data)

/-- Fuel-driven scanner for `stripAllL`; the fuel bounds the number of
characters still to be examined, so `fuel = s.length` always suffices and
the fuel-exhausted branch is never reached from `stripAllL`. -/
def stripAllF (pat : List Char) : ℕ → List Char → List Char
  | 0, s => s
  | _ + 1, [] => []
  | fuel + 1, c :: cs =>
    if pat ≠ [] && pat.isPrefixOf (c :: cs) then
      stripAllF pat fuel (List.drop pat.length (c :: cs))
    else
      c :: stripAllF pat fuel cs

/-- Global replacement of the literal pattern `pat` by the empty string,
matching JS `String.prototype.replace` with a `g` flag: matches are found
left to right, non-overlapping, and already-emitted output is not rescanned. -/
def stripAllL (pat : List Char) (s : List Char) : List Char :=
  stripAllF pat s.length s

/-- Substring test, JS `String.prototype.includes`. -/
def isInfixL (p : List Char) : List Char → Bool
  | [] => p.isPrefixOf []
  | c :: cs => p.isPrefixOf (c :: cs) || isInfixL p cs

/-- One step of run-splitting: extend the current run on a `p`-character,
close it on a separator. -/
def runStep (p : Char → Bool) (c : Char) : List Char × List (List Char) → List Char × List (List Char)
  | (cur, runs) =>
    if p c then (c :: cur, runs)
    else ([], if cur = [] then runs else cur :: runs)

/-- Split a character list into its maximal runs of characters satisfying
`p` (the pieces produced by `split(/\W+/)` once empty pieces are
discarded). -/
def wordRuns (p : Char → Bool) (s : List Char) : List (List Char) :=
  let (cur, runs) := s.foldr (fun c acc => runStep p c acc) ([], [])
  if cur = [] then runs else cur :: runs

/-- Membership-filtering pass of `jsSetList`. -/
def jsSetGo {α : Type} [DecidableEq α] (seen : List α) : List α → List α
  | [] => []
  | a :: t => if a ∈ seen then jsSetGo seen t else a :: jsSetGo (a :: seen) t

/-- JS `Set` built from a list: keeps the first occurrence of each element,
in insertion order. -/
def jsSetList {α : Type} [DecidableEq α] (l : List α) : List α :=
  jsSetGo [] l

/-! ## JS values and rows -/

/-- A JS scalar value as it appears in a database row: `null`, `NaN`, a
(finite) number, a string, or a boolean.  `undefined` is represented by
`Option.none` at use sites. -/
inductive Value : Type
  | null : Value
  | nan : Value
  | num : ℚ → Value
  | str : String → Value
  | bool : Bool → Value
deriving DecidableEq, Repr

/-- A database row / JS object: an association list from field names to
values.  Field lookup returns `none` for an absent field (`undefined`). -/
abbrev Row : Type := List (String × Value)

/-- JS property read `row[field]`; `none` models `undefined`. -/
def getField (row : Row) (field : String) : Option Value :=
  (row.find? (fun kv => kv.1 = field)).map (·.2)

/-- Set `obj[key] = v` on a JS object: overwrites in place if the key
exists, otherwise appends the new property. -/
def setField (obj : Row) (key : String) (v : Value) : Row :=
  if (obj.find? (fun kv => kv.1 = key)).isSome then
    obj.map (fun kv => if kv.1 = key then (kv.1, v) else kv)
  else
    obj ++ [(key, v)]

/-! ## `parseFloat` (ASCII model; the `Infinity` literal is not modelled,
which is sound for every input exercised here) -/

/-- Take a maximal run of decimal digits. -/
def takeDigits (s : List Char) : List Char × List Char :=
  (s.takeWhile isDigitChar, s.dropWhile isDigitChar)

/-- Numeric value of a digit run. -/
def digitsToNat (ds : List Char) : ℕ :=
  ds.foldl (fun acc c => acc * 10 + (c.toNat - '0'.toNat)) 0

/-- Parse the optional exponent part `e[+-]?digits`, returning its value
and the unconsumed remainder; it is consumed only when at least one digit
follows, as in JS. -/
def parseExpPart (s : List Char) : ℤ × List Char :=
  match s with
  | 'e' :: rest | 'E' :: rest =>
    match rest with
    | '+' :: r2 =>
      if (takeDigits r2).1 = [] then (0, s)
      else ((digitsToNat (takeDigits r2).1 : ℤ), (takeDigits r2).2)
    | '-' :: r2 =>
      if (takeDigits r2).1 = [] then (0, s)
      else (-(digitsToNat (takeDigits r2).1 : ℤ), (takeDigits r2).2)
    | r2 =>
      if (takeDigits r2).1 = [] then (0, s)
      else ((digitsToNat (takeDigits r2).1 : ℤ), (takeDigits r2).2)
  | _ => (0, s)

/-- Parse an optional sign and a decimal mantissa with optional fraction
and exponent, returning the value and the unconsumed remainder; `none`
when no digit is found. -/
def parseSignedFloat (cs : List Char) : Option (ℚ × List Char) :=
  let (sign, cs1) : ℚ × List Char :=
    match cs with
    | '-' :: r => (-1, r)
    | '+' :: r => (1, r)
    | r => (1, r)
  let (ip, cs2) := takeDigits cs1
  let (fp, cs3) :=
    match cs2 with
    | '.' :: r => takeDigits r
    | _ => ([], cs2)
  if ip = [] && fp = [] then
    none
  else
    let p := parseExpPart cs3
    let mantissa : ℚ := (digitsToNat ip : ℚ) + (digitsToNat fp : ℚ) / (10 : ℚ) ^ fp.length
    some (sign * mantissa * (10 : ℚ) ^ p.1, p.2)

/-- `parseFloat` on a string: skip leading whitespace, then take the
longest numeric prefix; `none` is `NaN` (no digits found). -/
def parseFloatStr (s : String) : Option ℚ :=
  (parseSignedFloat (s.data.dropWhile isWsChar)).map (·.1)

/-- `Number(s)` on a string: whitespace-trimmed empty string is `0`, else
the whole trimmed string must be a decimal number (the hexadecimal and
binary literal forms are not modelled; no input settled here uses them). -/
def strToNumber (s : String) : Option ℚ :=
  match trimL s.data with
  | [] => some 0
  | t =>
    match parseSignedFloat t with
    | some (q, []) => some q
    | _ => none

/-- `parseFloat(v)`: the argument is first coerced to a string, so numbers
parse back to themselves and `null`/booleans/`NaN` give `NaN` (`none`). -/
def parseFloatVal : Value → Option ℚ
  | Value.num q => some q
  | Value.str s => parseFloatStr s
  | _ => none

/-- `parseFloat(row[field])`, where an absent field (`undefined`) is `NaN`. -/
def parseFloatField (row : Row) (field : String) : Option ℚ :=
  (getField row field).bind parseFloatVal

/-! ## C1 — `SqlGenerationService.cleanSQLResponse` -/

/-- The keyword alternatives of the extraction regex
`/(SELECT|WITH|INSERT|UPDATE|DELETE)[\s\S]*/i`, in lower case. -/
def sqlKeywords : List (List Char) :=
  ["select".data, "with".data, "insert".data, "update".data, "delete".data]

/-- Does one of the five keywords match (case-insensitively) at the head of
`s`? -/
def keywordAt (s : List Char) : Bool :=
  sqlKeywords.any (fun kw => ciPrefixAt kw s)

/-- Scan left to right for the first position where a keyword matches and
return the whole suffix from there (the regex tail `[\s\S]*` is greedy). -/
def findKeywordSuffix : List Char → Option (List Char)
  | [] => none
  | c :: cs => if keywordAt (c :: cs) then some (c :: cs) else findKeywordSuffix cs

/-- `SqlGenerationService.cleanSQLResponse`: strip markdown fences, keep the
substring from the first SQL keyword onward, trim; fall back to a fixed
default query when no keyword is found; an empty (falsy) response returns
the empty string. -/
def cleanSQLResponse (response : String) : String :=
  if response.data = [] then ""
  else
    match findKeywordSuffix (stripAllL "```".data (stripAllL "```sql".data response.data)) with
    | some suf => String.mk (trimL suf)
    | none => "SELECT * FROM users LIMIT 10"

/-- Case-insensitive "starts with" on strings (`kw` given in lower case). -/
def startsWithCI (kw : String) (s : String) : Bool :=
  ciPrefixAt kw.data s.data

/-! ## C10 — `SqlGenerationService.findSimilarQueries` -/

/-- `text.toLowerCase().split(/\W+/).filter(w => w.length > 2)`. -/
def wordsOf (s : String) : List String :=
  ((wordRuns isWordChar (s.data.map Char.toLower)).map String.mk).filter
    (fun w => 2 < w.length)

/-- The `Set` of significant words of a text, in insertion order. -/
def promptWordSet (s : String) : List String :=
  jsSetList (wordsOf s)

/-- A knowledge-base entry recorded by `learnFromSuccessfulQuery`. -/
structure KBEntry : Type where
  query : String
  userPrompt : String
  tables : List String
  joins : List String
  whereConditions : String
  resultCount : ℕ
  timestamp : String
deriving DecidableEq, Repr

/-- Word-overlap similarity: `overlap / Math.max(promptWords.size, entryWords.size)`
(in the JS source `0/0` is `NaN`, which fails the `> 0.3` filter exactly as
the rational `0` does here). -/
def similarityScore (p e : String) : ℚ :=
  let pw := promptWordSet p
  let ew := promptWordSet e
  ((pw.countP (fun w => decide (w ∈ ew))) : ℚ) / (max pw.length ew.length : ℚ)

/-- Descending order on similarity scores, the comparator
`(a, b) => b.similarity - a.similarity`. -/
def simDescRel : (KBEntry × ℚ) → (KBEntry × ℚ) → Prop := fun a b => b.2 ≤ a.2

instance : DecidableRel simDescRel := fun a b => inferInstanceAs (Decidable (b.2 ≤ a.2))

instance : IsTotal (KBEntry × ℚ) simDescRel := ⟨fun a b => le_total b.2 a.2⟩

instance : IsTrans (KBEntry × ℚ) simDescRel := ⟨fun _ _ _ h1 h2 => le_trans h2 h1⟩

/-- `SqlGenerationService.findSimilarQueries`: score every knowledge-base
entry, keep scores above `0.3`, sort by descending similarity, take the
top 3. -/
def findSimilarQueries (kb : List KBEntry) (userPrompt : String) : List (KBEntry × ℚ) :=
  (List.insertionSort simDescRel
    ((kb.map (fun e => (e, similarityScore userPrompt e.userPrompt))).filter
      (fun x => decide ((3 : ℚ)/10 < x.2)))).take 3

/-! ## C7 — `dataUtils.detectOutliers` (IQR method) -/

/-- The numeric values of a field across the rows:
`data.map(item => parseFloat(item[field])).filter(val => !isNaN(val))`. -/
def numericValues (data : List Row) (field : String) : List ℚ :=
  data.filterMap (fun row => parseFloatField row field)

/-- Ascending numeric sort, the comparator `(a, b) => a - b`. -/
def sortRat (l : List ℚ) : List ℚ :=
  List.insertionSort (· ≤ ·) l

/-- Result shape of the outlier detectors: `{outliers, normalData}` with the
optional `bounds`/`quartiles` only present on the full computation path. -/
structure OutlierResult : Type where
  outliers : List Row
  normalData : List Row
  bounds : Option (ℚ × ℚ)
  quartiles : Option (ℚ × ℚ)
deriving DecidableEq, Repr

/-- `dataUtils.detectOutliers`: IQR-based outlier detection.  With fewer
than 4 rows, or fewer than 4 numeric values in the chosen field, it
returns no outliers and the data unchanged; otherwise values are sorted,
quartiles are read at indices `floor(n*0.25)` and `floor(n*0.75)`, and
rows outside `[q1 - 1.5*iqr, q3 + 1.5*iqr]` are flagged. -/
def detectOutliers (data : List Row) (field : String) : OutlierResult :=
  if data.length < 4 then ⟨[], data, none, none⟩
  else
    let values := numericValues data field
    if values.length < 4 then ⟨[], data, none, none⟩
    else
      let sorted := sortRat values
      let n := sorted.length
      let q1 := sorted.getD (n / 4) 0
      let q3 := sorted.getD (3 * n / 4) 0
      let iqr := q3 - q1
      let lowerBound := q1 - 3/2 * iqr
      let upperBound := q3 + 3/2 * iqr
      let outliers := data.filter (fun row =>
        match parseFloatField row field with
        | some v => decide (v < lowerBound ∨ upperBound < v)
        | none => false)
      let normalData := data.filter (fun row =>
        match parseFloatField row field with
        | some v => decide (lowerBound ≤ v ∧ v ≤ upperBound)
        | none => true)
      ⟨outliers, normalData, some (lowerBound, upperBound), some (q1, q3)⟩

/-! ## C8 — `dataUtils.detectTrend` -/

/-- Stable insertion of a row into a list sorted by ascending key (the JS
`sort((a, b) => timeA - timeB)` comparator). -/
def insertByKey (key : Row → ℚ) (x : Row) : List Row → List Row
  | [] => [x]
  | y :: ys => if key x ≤ key y then x :: y :: ys else y :: insertByKey key x ys

/-- Sort rows by ascending key value. -/
def sortByKey (key : Row → ℚ) (l : List Row) : List Row :=
  l.foldr (insertByKey key) []

/-- Result of `detectTrend`: the two degenerate records carry only the
`trend` string; the full record carries the fitted slope and the change
statistics. -/
inductive TrendResult : Type
  | insufficientData : TrendResult
  | insufficientValidData : TrendResult
  | result (trend : String) (slope firstValue lastValue changePercent : ℚ) : TrendResult
deriving DecidableEq, Repr

/-- The time-sorted numeric series examined by `detectTrend`. -/
def trendValues (dateMs : Option Value → ℚ) (data : List Row)
    (valueField timeField : String) : List ℚ :=
  (sortByKey (fun row => dateMs (getField row timeField)) data).filterMap
    (fun row => parseFloatField row valueField)

/-- The least-squares slope of a series against its indices:
`(n*sumXY - sumX*sumY) / (n*sumXX - sumX*sumX)`. -/
def slopeOf (values : List ℚ) : ℚ :=
  let n : ℚ := values.length
  let sumX : ℚ := ((List.range values.length).map (fun i => (i : ℚ))).sum
  let sumY : ℚ := values.sum
  let sumXY : ℚ := (values.enum.map (fun p => (p.1 : ℚ) * p.2)).sum
  let sumXX : ℚ := ((List.range values.length).map (fun i => (i : ℚ) * i)).sum
  (n * sumXY - sumX * sumY) / (n * sumXX - sumX * sumX)

/-- Slope classification of `detectTrend`. -/
def trendLabel (slope : ℚ) : String :=
  if |slope| < 1/100 then "stable"
  else if 0 < slope then
    (if 1/10 < slope then "strong increase" else "slight increase")
  else
    (if slope < -(1/10) then "strong decrease" else "slight decrease")

/-- First-to-last percent change with the division-by-zero guard of
`detectTrend`. -/
def changePercentOf (firstValue lastValue : ℚ) : ℚ :=
  if firstValue ≠ 0 then (lastValue - firstValue) / firstValue * 100
  else if lastValue ≠ 0 then 100
  else 0

/-- `dataUtils.detectTrend`: sort rows by a time column (`dateMs` models
`new Date(row[timeField])` in milliseconds; it is a parameter because
`Date` parsing is a platform facility), extract the numeric values of
`valueField`, fit a least-squares line of value against index, classify
the slope, and compute the first-to-last percent change with a
division-by-zero guard. -/
def detectTrend (dateMs : Option Value → ℚ) (data : List Row)
    (valueField timeField : String) : TrendResult :=
  if data.length < 3 then TrendResult.insufficientData
  else if (trendValues dateMs data valueField timeField).length < 3 then
    TrendResult.insufficientValidData
  else
    TrendResult.result
      (trendLabel (slopeOf (trendValues dateMs data valueField timeField)))
      (slopeOf (trendValues dateMs data valueField timeField))
      ((trendValues dateMs data valueField timeField).headD 0)
      ((trendValues dateMs data valueField timeField).getLastD 0)
      (changePercentOf ((trendValues dateMs data valueField timeField).headD 0)
        ((trendValues dateMs data valueField timeField).getLastD 0))

/-! ## C6 — `dataUtils.calculateCorrelationMatrix` -/

/-- The correlation matrix as a function from a pair of field names to the
stored entry: a number, or `none` for JS `null`. -/
abbrev CorrMatrix : Type := String → String → Option ℚ

/-- Assignment `matrix[a][b] = v`. -/
def updEntry (m : CorrMatrix) (a b : String) (v : Option ℚ) : CorrMatrix :=
  fun x y => if x = a ∧ y = b then v else m x y

/-- The initialisation double loop: every entry of `fields × fields` is set
to `1` on the diagonal and `null` elsewhere. -/
def corrInit (fields : List String) : CorrMatrix :=
  fields.foldl
    (fun m f1 =>
      fields.foldl (fun m2 f2 => updEntry m2 f1 f2 (if f1 = f2 then some 1 else none)) m)
    (fun _ _ => none)

/-- The index pairs `(i, j)` with `i < j` visited by the correlation double
loop, in visit order. -/
def corrPairs : List String → List (String × String)
  | [] => []
  | f :: rest => (rest.map (fun g => (f, g))) ++ corrPairs rest

/-- `dataUtils.calculateCorrelation`: `null` with fewer than 3 rows or
fewer than 3 numeric pairs, else the external `sampleCorrelation`
primitive `sc` (whose `none` models a caught exception, returned as
`null`). -/
def calculateCorrelation (sc : List ℚ → List ℚ → Option ℚ) (data : List Row)
    (fieldX fieldY : String) : Option ℚ :=
  if data.length < 3 then none
  else
    let pairs := data.filterMap (fun row =>
      match parseFloatField row fieldX, parseFloatField row fieldY with
      | some x, some y => some (x, y)
      | _, _ => none)
    if pairs.length < 3 then none
    else sc (pairs.map (·.1)) (pairs.map (·.2))

/-- One step of the correlation double loop:
`matrix[f1][f2] = c; matrix[f2][f1] = c`. -/
def corrStep (sc : List ℚ → List ℚ → Option ℚ) (data : List Row)
    (m : CorrMatrix) (p : String × String) : CorrMatrix :=
  updEntry (updEntry m p.1 p.2 (calculateCorrelation sc data p.1 p.2))
    p.2 p.1 (calculateCorrelation sc data p.1 p.2)

/-- `dataUtils.calculateCorrelationMatrix`: `none` models the
`{error: "Insufficient data..."}` return; otherwise the initialised matrix
is filled pairwise. -/
def calculateCorrelationMatrix (sc : List ℚ → List ℚ → Option ℚ) (data : List Row)
    (fields : List String) : Option CorrMatrix :=
  if data = [] ∨ fields.length < 2 then none
  else some ((corrPairs fields).foldl (corrStep sc data) (corrInit fields))

/-! ## C3 — `MistralService.retryWithBackoff` -/

/-- A JS `Error` as the retry logic observes it: an optional `statusCode`
and a `message`. -/
structure JsError : Type where
  statusCode : Option ℕ
  message : String
deriving DecidableEq, Repr

/-- The rate-limit test: `statusCode === 429`, or the message contains
`"429"` or `"rate limit"`. -/
def isRateLimitB (e : JsError) : Bool :=
  decide (e.statusCode = some 429) || isInfixL "429".data e.message.data ||
    isInfixL "rate limit".data e.message.data

/-- The error thrown after exhausting retries on rate-limit errors. -/
def rlExceededErr : JsError :=
  ⟨none, "API rate limit exceeded. Please try again later."⟩

/-- The error thrown after exhausting retries on a non-rate-limit error. -/
def maxRetryErr (e : JsError) : JsError :=
  ⟨none, "Maximum retry attempts (3) exceeded: " ++ e.message⟩

/-- `retryWithBackoff`, fuel-indexed.  `op k` is the outcome of the
`(k+1)`-th invocation of the operation (the operation is a stateful
closure in JS, so successive calls may differ); `jitter k` models the
`Math.random() * 1000` term added before the `(k+1)`-th retry.  The first
component collects the delays awaited, in order.  The fuel-exhausted
branch is unreachable whenever `budget = 4 - retryCount`, which
`retryWithBackoff` establishes. -/
def retryAux {α : Type} (op : ℕ → Except JsError α) (jitter : ℕ → ℚ) :
    ℕ → ℕ → List ℚ × Except JsError α
  | 0, _ => ([], Except.error ⟨none, "fuel exhausted"⟩)
  | budget + 1, retryCount =>
    match op retryCount with
    | Except.ok v => ([], Except.ok v)
    | Except.error e =>
      if isRateLimitB e && decide (retryCount < 3) then
        let d := 1000 * 2 ^ (retryCount + 1) + jitter retryCount
        let r := retryAux op jitter budget (retryCount + 1)
        (d :: r.1, r.2)
      else if 3 ≤ retryCount then
        ([], Except.error (if isRateLimitB e then rlExceededErr else maxRetryErr e))
      else
        ([], Except.error e)

/-- `MistralService.retryWithBackoff` started at `retryCount = 0`, with
`maxRetries = 3` and `baseDelay = 1000`. -/
def retryWithBackoff {α : Type} (op : ℕ → Except JsError α) (jitter : ℕ → ℚ) :
    List ℚ × Except JsError α :=
  retryAux op jitter 4 0

/-! ## C5 — table-relevance resolution
(`ReportService.identifyRelevantTablesParallel` and its three strategies)

The schema object is modelled by its ordered key list; `schemas[table]`
tests key membership (table-info values are always truthy objects).  The
LLM transport is the parameter `llm`; `JSON.parse` on the extracted array
text is the parameter `jsonParse`.  The literal instruction text of the
prompts only flows into `llm`, so it is abbreviated here. -/

/-- Remove every "```" fence together with a directly following newline,
the effect of `replace(/```.*?\n?/g, "")` (the lazy `.*?` matches the
empty string). -/
def stripTicksNlF : ℕ → List Char → List Char
  | 0, s => s
  | _ + 1, [] => []
  | fuel + 1, c :: cs =>
    if ("```".data).isPrefixOf (c :: cs) then
      match (c :: cs).drop 3 with
      | '\n' :: r2 => stripTicksNlF fuel r2
      | r2 => stripTicksNlF fuel r2
    else
      c :: stripTicksNlF fuel cs

/-- Fence removal at full fuel. -/
def stripTicksNl (s : List Char) : List Char :=
  stripTicksNlF s.length s

/-- JS `String.prototype.split` with a one-character separator; the empty
string yields `[""]` and adjacent separators yield empty pieces, as in JS. -/
def splitOnChar (sep : Char) : List Char → List (List Char)
  | [] => [[]]
  | c :: cs =>
    let r := splitOnChar sep cs
    if c = sep then [] :: r
    else (c :: r.headD []) :: r.tail

/-- The prompt of `SqlGenerationService.identifyRelevantTables`. -/
def tableIdentificationPrompt (userPrompt : String) (schemas : List String) : String :=
  "Given this user request: \"" ++ userPrompt ++ "\" And these table names: " ++
    String.intercalate ", " schemas ++
    " ... Return only the names of tables that are relevant to this query, as a comma-separated list."

/-- `SqlGenerationService.identifyRelevantTables`: ask the LLM, strip
markdown, split on commas, trim and lower-case each piece, and keep only
non-empty names that exist in the schema.  An LLM failure propagates (it
rejects the caller's `Promise.all`). -/
def identifyRelevantTables (llm : String → Except String String) (userPrompt : String)
    (schemas : List String) : Except String (List String) :=
  match llm (tableIdentificationPrompt userPrompt schemas) with
  | Except.error e => Except.error e
  | Except.ok response =>
    Except.ok
      ((splitOnChar ',' (stripTicksNl response.data)).map
          (fun t => lowerStr (trimS (String.mk t))) |>.filter
        (fun t => t ≠ "" && t ∈ schemas))

/-- The regex `/\[[\s\S]*\]/`: the substring from the first `[` through
the last `]`, when both exist in that order. -/
def extractBracket (s : List Char) : Option (List Char) :=
  match s.dropWhile (fun c => c ≠ '[') with
  | [] => none
  | l =>
    match l.reverse.dropWhile (fun c => c ≠ ']') with
    | [] => none
    | r => some r.reverse

/-- The prompt of `ReportService.identifyTablesWithAI`. -/
def tablesWithAIPrompt (userPrompt : String) (schemas : List String) : String :=
  "Given this user query: \"" ++ userPrompt ++ "\" And these available database tables: " ++
    String.intercalate ", " schemas ++
    " Which tables are most relevant to answer this query? Return only the table names as a JSON array, nothing else."

/-- `ReportService.identifyTablesWithAI`: extract a JSON array from the
LLM answer and keep the elements that are names of schema tables; any
failure (LLM error, no array, parse error) is caught and yields `[]`. -/
def identifyTablesWithAI (llm : String → Except String String)
    (jsonParse : String → Except String (List Value)) (userPrompt : String)
    (schemas : List String) : List String :=
  match llm (tablesWithAIPrompt userPrompt schemas) with
  | Except.error _ => []
  | Except.ok response =>
    match extractBracket response.data with
    | none => []
    | some sub =>
      match jsonParse (String.mk sub) with
      | Except.error _ => []
      | Except.ok tables =>
        tables.filterMap (fun v =>
          match v with
          | Value.str s => if s ∈ schemas then some s else none
          | _ => none)

/-- `table.replace('_', ' ')`: a string pattern replaces only the first
occurrence. -/
def replaceFirstUnderscore : List Char → List Char
  | [] => []
  | c :: cs => if c = '_' then ' ' :: cs else c :: replaceFirstUnderscore cs

/-- `ReportService.extractTableNamesFromPrompt`: schema tables whose name
(or name with the first `_` as a space) occurs in the lower-cased prompt. -/
def extractTableNamesFromPrompt (userPrompt : String) (schemas : List String) : List String :=
  schemas.filter (fun table =>
    isInfixL (lowerStr table).data (lowerStr userPrompt).data ||
      isInfixL (replaceFirstUnderscore (lowerStr table).data) (lowerStr userPrompt).data)

/-- The tables suggested by the prompt analysis
(`promptAnalysis?.dataRequirements?.relevantTables`, `none` when the chain
is absent): lower-case the string entries (non-strings become `""`) and
keep those that are schema keys. -/
def paTables (pa : Option (List Value)) (schemas : List String) : List String :=
  match pa with
  | none => []
  | some tables =>
    (tables.map (fun t =>
      match t with
      | Value.str s => lowerStr s
      | _ => "")).filter (fun t => t ∈ schemas)

/-- `ReportService.identifyRelevantTablesParallel`: prompt-analysis tables
take precedence; otherwise the three strategies run (an LLM failure in
`identifyRelevantTables` rejects the `Promise.all` and lands in the catch,
which falls back to the first schema table); their deduplicated union is
returned when non-empty, else the first schema table, and `[]` only for an
empty schema. -/
def identifyRelevantTablesParallel (llm : String → Except String String)
    (jsonParse : String → Except String (List Value)) (userPrompt : String)
    (schemas : List String) (pa : Option (List Value)) : List String :=
  if paTables pa schemas ≠ [] then paTables pa schemas
  else
    match identifyRelevantTables llm userPrompt schemas with
    | Except.error _ =>
      match schemas with
      | [] => []
      | t :: _ => [t]
    | Except.ok l1 =>
      if jsSetList (l1 ++ identifyTablesWithAI llm jsonParse userPrompt schemas ++
          extractTableNamesFromPrompt userPrompt schemas) ≠ [] then
        jsSetList (l1 ++ identifyTablesWithAI llm jsonParse userPrompt schemas ++
          extractTableNamesFromPrompt userPrompt schemas)
      else
        match schemas with
        | [] => []
        | t :: _ => [t]

/-! ## C4 — `ReportService.chunkJsonData`

The result object passed to `chunkJsonData` is a JSON object; events are
emitted through `sendUpdate` and collected here as the returned list, each
event being an object (a field list).  String lengths are code-unit counts
restricted to the ASCII range. -/

/-- A JSON value (the payloads handled by `JSON.stringify`). -/
inductive Json : Type
  | null : Json
  | bool : Bool → Json
  | num : ℚ → Json
  | str : String → Json
  | arr : List Json → Json
  | obj : List (String × Json) → Json

/-- Hexadecimal digit for `\uXXXX` escapes. -/
def hexDigit (n : ℕ) : Char :=
  if n < 10 then Char.ofNat ('0'.toNat + n) else Char.ofNat ('a'.toNat + n - 10)

/-- The JSON escape of one character. -/
def escChar (c : Char) : List Char :=
  if c = '"' then ['\\', '"']
  else if c = '\\' then ['\\', '\\']
  else if c = '\x08' then ['\\', 'b']
  else if c = '\x0c' then ['\\', 'f']
  else if c = '\n' then ['\\', 'n']
  else if c = '\r' then ['\\', 'r']
  else if c = '\t' then ['\\', 't']
  else if c.toNat < 32 then
    ['\\', 'u', '0', '0', hexDigit (c.toNat / 16), hexDigit (c.toNat % 16)]
  else [c]

/-- The JSON escape of a string body. -/
def escStr (s : String) : List Char :=
  s.data.foldr (fun c acc => escChar c ++ acc) []

/-- Decimal text of a JSON number.  JS float formatting is abstracted: a
non-integer rational is rendered as `num/den`.  Only the serialized
*length* of the top-level result object is ever observed by
`chunkJsonData`, and the inputs settled here contain no numbers. -/
def numRepr (q : ℚ) : List Char :=
  if q.den = 1 then (toString q.num).data
  else (toString q.num).data ++ '/' :: (toString q.den).data

mutual

/-- `JSON.stringify` (ASCII model). -/
def stringifyJ : Json → List Char
  | Json.null => "null".data
  | Json.bool true => "true".data
  | Json.bool false => "false".data
  | Json.num q => numRepr q
  | Json.str s => '"' :: escStr s ++ ['"']
  | Json.arr l => '[' :: stringifyArr l ++ [']']
  | Json.obj fs => '\x7b' :: stringifyObj fs ++ ['\x7d']

/-- Comma-separated serialization of array elements. -/
def stringifyArr : List Json → List Char
  | [] => []
  | [x] => stringifyJ x
  | x :: y :: xs => stringifyJ x ++ ',' :: stringifyArr (y :: xs)

/-- Comma-separated serialization of object fields. -/
def stringifyObj : List (String × Json) → List Char
  | [] => []
  | [(k, v)] => '"' :: escStr k ++ '"' :: ':' :: stringifyJ v
  | (k, v) :: f :: fs =>
    ('"' :: escStr k ++ '"' :: ':' :: stringifyJ v) ++ ',' :: stringifyObj (f :: fs)

end

/-- `JSON.stringify(x).length`. -/
def jsonLen (j : Json) : ℕ :=
  (stringifyJ j).length

/-- Field lookup on a JSON object. -/
def lookupJ (fs : List (String × Json)) (k : String) : Option Json :=
  (fs.find? (fun kv => kv.1 = k)).map (·.2)

/-- Set `obj[key] = v` on a JSON object: overwrite in place when the key
exists, else append. -/
def setJField (fs : List (String × Json)) (key : String) (v : Json) :
    List (String × Json) :=
  if (fs.find? (fun kv => kv.1 = key)).isSome then
    fs.map (fun kv => if kv.1 = key then (kv.1, v) else kv)
  else
    fs ++ [(key, v)]

/-- The `rawData` field when it holds an array (the shape produced by the
pipeline; the `rawData && rawData.length > 0` guards are array tests
here). -/
def rawDataList (fs : List (String × Json)) : Option (List Json) :=
  match lookupJ fs "rawData" with
  | some (Json.arr l) => some l
  | _ => none

/-- The chunk-emission loop `for (i = 0; i < rawData.length; i += 100)`,
fuel-indexed by the number of rows still to slice (`fuel = l.length`
always suffices). -/
def chunkEventsF (total : ℕ) : ℕ → List Json → ℕ → List (List (String × Json))
  | 0, _, _ => []
  | _ + 1, [], _ => []
  | fuel + 1, l, k =>
    [("rawDataChunk", Json.arr (l.take 100)), ("chunkIndex", Json.num k),
      ("totalChunks", Json.num total)] ::
      chunkEventsF total fuel (l.drop 100) (k + 1)

/-- `ReportService.chunkJsonData`: a result whose serialization is below
50,000 characters is emitted as a single event; otherwise a metadata event
(with `rawData` emptied and `rawDataPending` set when `rawData` is a
non-empty array) is followed, when `rawData` is non-empty, by the 100-row
chunk events and the `rawDataComplete` marker. -/
def chunkJsonData (data : List (String × Json)) : List (List (String × Json)) :=
  if jsonLen (Json.obj data) < 50000 then [data]
  else
    match rawDataList data with
    | some l =>
      if 0 < l.length then
        setJField (setJField data "rawData" (Json.arr [])) "rawDataPending" (Json.bool true) ::
          (chunkEventsF ((l.length + 99) / 100) l.length l 0 ++
            [[("rawDataComplete", Json.bool true), ("rowCount", Json.num l.length)]])
      else [data]
    | none => [data]

/-- The chunk events as the spec describes them: one event per consecutive
100-row slice, carrying `chunkIndex = slice number` and
`totalChunks = ceil(rowCount/100)`. -/
def specChunkEvents (l : List Json) : List (List (String × Json)) :=
  (List.range ((l.length + 99) / 100)).map (fun j =>
    [("rawDataChunk", Json.arr ((l.drop (100 * j)).take 100)),
      ("chunkIndex", Json.num j),
      ("totalChunks", Json.num (((l.length + 99) / 100 : ℕ) : ℚ))])

/-! ## `executeSqlWithFallback` (ReportService)

The database pool is the parameter `db : String → Except String (List Row)`,
mapping a query text to its row list or to the message of the thrown
error, and the `Date`-based formatting inside `formatDatesInData` is the
parameter `fmtDate : String → Option String` (`none`: the constructed
date is invalid, the original string is kept).  `sendUpdate` only emits
progress events and is elided.  Template-literal layout whitespace in
query texts is normalized to single spaces; the texts only flow into
`db`. -/

/-- A single quote character, for SQL literals in query texts. -/
def sQuote : String := String.mk ['\x27']

/-- A relationship record of the minimal schema. -/
structure Relationship : Type where
  table_name : String
  column_name : String
  foreign_table_name : String
  foreign_column_name : String
deriving DecidableEq, Repr

/-- A foreign-key descriptor built by `identifyForeignKeys`. -/
structure FkInfo : Type where
  table : String
  column : String
  referencedTable : String
  referencedColumn : String
deriving DecidableEq, Repr

/-- The minimal schema handed to `executeSqlWithFallback`: table names and
relationship records. -/
structure MinimalSchema : Type where
  tables : List String
  relationships : List Relationship

/-- The result object of `executeSqlWithFallback`.  The source returns
records with different key sets; a key absent from a branch appears here
as `none` (resp. `false` for `fallbackUsed`). -/
structure ExecResult : Type where
  data : List Row
  relatedData : Option (List (String × List Row))
  sql : String
  error : Option String
  fallbackUsed : Bool
  message : Option String
deriving DecidableEq, Repr

/-- One attempted match of `/kw\s+([a-z_][a-z0-9_]*)/i` anchored at the
head of `s`: the keyword, at least one whitespace character, then an
identifier.  Returns the identifier (the full match with `/kw\s+/i`
removed and trimmed, as the source computes it) and the unconsumed
remainder. -/
def tryTableAt (kw : List Char) (s : List Char) : Option (String × List Char) :=
  if ciPrefixAt kw s then
    if (List.drop kw.length s).takeWhile isWsChar = [] then none
    else
      match (List.drop kw.length s).dropWhile isWsChar with
      | [] => none
      | c :: cs2 =>
        if isIdentStartChar c then
          some (String.mk (c :: cs2.takeWhile isIdentChar), cs2.dropWhile isIdentChar)
        else none
  else none

/-- All matches of `/kw\s+([a-z_][a-z0-9_]*)/gi`, reduced to their
identifiers: the engine searches left to right, advancing one character
past positions where no match starts and resuming after each match.  The
fuel bounds the number of scan steps, so `fuel = s.length` suffices. -/
def scanTablesF (kw : List Char) : ℕ → List Char → List String
  | 0, _ => []
  | _ + 1, [] => []
  | fuel + 1, c :: cs =>
    match tryTableAt kw (c :: cs) with
    | some p => p.1 :: scanTablesF kw fuel p.2
    | none => scanTablesF kw fuel cs

/-- `[...tableMatches.map(strip), ...joinMatches.map(strip)]`: the tables
named by `FROM` and `JOIN` clauses of the failed query. -/
def extractSqlTables (sql : String) : List String :=
  scanTablesF "from".data sql.data.length sql.data ++
    scanTablesF "join".data sql.data.length sql.data

/-- Case-sensitive `String.prototype.endsWith`. -/
def endsWithS (suf s : String) : Bool :=
  List.isPrefixOf suf.data.reverse s.data.reverse

/-- Case-insensitive suffix test (`suf` given in lower case), for the
anchored `/i`-flagged replaces. -/
def ciEndsWith (suf : List Char) (s : List Char) : Bool :=
  List.isPrefixOf suf.reverse (s.reverse.map Char.toLower)

/-- `col.replace(/_id$/i, "")` then `.replace(/Id$/i, "")` on character
lists. -/
def stripIdSuffixesL (col : List Char) : List Char :=
  if ciEndsWith "_id".data col then
    if ciEndsWith "id".data (col.take (col.length - 3)) then
      (col.take (col.length - 3)).take (col.length - 5)
    else col.take (col.length - 3)
  else if ciEndsWith "id".data col then col.take (col.length - 2)
  else col

/-- `col.replace(/_id$/i, "").replace(/Id$/i, "")`. -/
def stripIdSuffixes (col : String) : String :=
  String.mk (stripIdSuffixesL col.data)

/-- `identifyForeignKeys(sampleRow, relationships)`: columns of the sample
row that look like foreign keys, resolved against the relationship
records or guessed from the `_id`/`Id` naming convention. -/
def identifyForeignKeys (sampleRow : Row) (relationships : List Relationship) : List FkInfo :=
  ((sampleRow.map (·.1)).filter (fun col =>
    endsWithS "_id" col || endsWithS "Id" col || col = "id" ||
      relationships.any (fun rel =>
        rel.column_name = col || rel.foreign_column_name = col))).filterMap
    (fun col =>
      match relationships.find? (fun rel =>
          rel.column_name = col || rel.foreign_column_name = col) with
      | some rel =>
        some ⟨rel.table_name, col, rel.foreign_table_name, rel.foreign_column_name⟩
      | none =>
        if endsWithS "_id" col || endsWithS "Id" col then
          some ⟨"", col, stripIdSuffixes col, "id"⟩
        else none)

/-- `[...new Set(primaryData.map(row => row[col]).filter(v => v !== null
&& v !== undefined))]`; a JS `Set` uses SameValueZero, under which `NaN`
equals `NaN`, matching decidable equality of `Value`. -/
def uniqueFkVals (primaryData : List Row) (col : String) : List Value :=
  jsSetList (primaryData.filterMap (fun row =>
    match getField row col with
    | none => none
    | some Value.null => none
    | some v => some v))

/-- A value interpolated into the `IN (...)` list: strings are quoted,
anything else is rendered by the template literal (number formatting
abstracted by `numRepr`). -/
def renderLitV : Value → String
  | Value.str s => sQuote ++ s ++ sQuote
  | Value.num q => String.mk (numRepr q)
  | Value.nan => "NaN"
  | Value.bool b => cond b "true" "false"
  | Value.null => "null"

/-- The related-data query text of `performRelatedQueries`. -/
def relatedQuerySql (fk : FkInfo) (vals : List Value) : String :=
  "SELECT * FROM " ++ fk.referencedTable ++ " WHERE " ++ fk.referencedColumn ++
    " IN (" ++ String.intercalate "," (vals.map renderLitV) ++ ") LIMIT 1000"

/-- JS object assignment `m[k] = v` on an association list: overwrite the
entry if the key exists, otherwise append it. -/
def setAssoc {β : Type} (m : List (String × β)) (k : String) (v : β) :
    List (String × β) :=
  if (m.find? (fun kv => kv.1 = k)).isSome then
    m.map (fun kv => if kv.1 = k then (kv.1, v) else kv)
  else m ++ [(k, v)]

/-- The foreign-key loop of `performRelatedQueries`, threading the
`processedRelationships` and `relatedData` accumulators; a failing or
empty related query is skipped (its error is caught and logged). -/
def prqLoop (db : String → Except String (List Row)) (primaryData : List Row) :
    List FkInfo → List String → List (String × List Row) → List (String × List Row)
  | [], _, acc => acc
  | fk :: rest, processed, acc =>
    if (fk.table ++ "_" ++ fk.column) ∈ processed then
      prqLoop db primaryData rest processed acc
    else if uniqueFkVals primaryData fk.column = [] then
      prqLoop db primaryData rest processed acc
    else
      match db (relatedQuerySql fk (uniqueFkVals primaryData fk.column)) with
      | Except.error _ => prqLoop db primaryData rest processed acc
      | Except.ok rows =>
        if rows = [] then prqLoop db primaryData rest processed acc
        else
          prqLoop db primaryData rest (processed ++ [fk.table ++ "_" ++ fk.column])
            (setAssoc acc fk.referencedTable rows)

/-- `performRelatedQueries(primaryData, schema, relationships)`, returning
the pair `(primaryData, relatedData)`.  The `schema` argument is unused by
the source body; the outer catch is unreachable since every step of the
body is total. -/
def performRelatedQueries (db : String → Except String (List Row))
    (primaryData : List Row) (schema : List String) (relationships : List Relationship) :
    List Row × List (String × List Row) :=
  if primaryData = [] then (primaryData, [])
  else
    (primaryData,
      prqLoop db primaryData
        (identifyForeignKeys (primaryData.headD []) relationships) [] [])

/-- Prefix test of a regex made of literal character classes: the subject
may continue after the pattern (the date patterns are unanchored on the
right). -/
def shapeTest : List (Char → Bool) → List Char → Bool
  | [], _ => true
  | _ :: _, [] => false
  | p :: ps, c :: cs => p c && shapeTest ps cs

/-- The six date shapes of `isLikelyDate`. -/
def datePatterns : List (List (Char → Bool)) :=
  [ [isDigitChar, isDigitChar, isDigitChar, isDigitChar, (· = '-'),
     isDigitChar, isDigitChar, (· = '-'), isDigitChar, isDigitChar]
  , [isDigitChar, isDigitChar, isDigitChar, isDigitChar, (· = '-'),
     isDigitChar, isDigitChar, (· = '-'), isDigitChar, isDigitChar,
     (· = 'T'), isDigitChar, isDigitChar, (· = ':'), isDigitChar, isDigitChar]
  , [isDigitChar, isDigitChar, (· = '/'), isDigitChar, isDigitChar,
     (· = '/'), isDigitChar, isDigitChar, isDigitChar, isDigitChar]
  , [isDigitChar, isDigitChar, isDigitChar, isDigitChar, (· = '/'),
     isDigitChar, isDigitChar, (· = '/'), isDigitChar, isDigitChar]
  , [isDigitChar, isDigitChar, (· = '-'), isDigitChar, isDigitChar,
     (· = '-'), isDigitChar, isDigitChar, isDigitChar, isDigitChar]
  , [isWordChar, isWordChar, isWordChar, isWsChar, isDigitChar, isDigitChar,
     (· = ','), isWsChar, isDigitChar, isDigitChar, isDigitChar, isDigitChar] ]

/-- `isLikelyDate(str)`. -/
def isLikelyDate (str : String) : Bool :=
  datePatterns.any (fun p => shapeTest p str.data)

/-- `formatDatesInData(data)`: each string value that looks like a date is
replaced by its formatted form when the constructed `Date` is valid
(parameter `fmtDate`); `null` and non-string values are kept. -/
def formatDatesInData (fmtDate : String → Option String) (data : List Row) :
    List Row :=
  if data = [] then data
  else
    data.map (fun row => row.map (fun kv =>
      match kv.2 with
      | Value.str s =>
        if isLikelyDate s then
          match fmtDate s with
          | some t => (kv.1, Value.str t)
          | none => kv
        else kv
      | _ => kv))

/-- The record returned when every fallback fails. -/
def finalFailResult (sql errMsg : String) : ExecResult :=
  ⟨[], none, sql, some errMsg, true,
    some "Could not retrieve data. Please try a different query."⟩

/-- The `information_schema` table-listing query of the last-resort
branch. -/
def tablesQuery : String :=
  "SELECT table_name FROM information_schema.tables WHERE table_schema = " ++
    sQuote ++ "public" ++ sQuote ++ " LIMIT 10"

/-- A value interpolated into a template literal (`${tableRow.table_name}`
with an absent property rendering as `undefined`). -/
def valueToString : Option Value → String
  | none => "undefined"
  | some Value.null => "null"
  | some Value.nan => "NaN"
  | some (Value.num q) => String.mk (numRepr q)
  | some (Value.str s) => s
  | some (Value.bool b) => cond b "true" "false"

/-- The per-table loop of the last-resort branch: sample each table listed
by `information_schema` until one returns rows; a failing sample query is
caught and the loop continues. -/
def sampleLoop (db : String → Except String (List Row))
    (fmtDate : String → Option String) (origSql errMsg : String) :
    List Row → ExecResult
  | [] => finalFailResult origSql errMsg
  | tableRow :: rest =>
    match db ("SELECT * FROM " ++ valueToString (getField tableRow "table_name") ++
        " LIMIT 100") with
    | Except.error _ => sampleLoop db fmtDate origSql errMsg rest
    | Except.ok srows =>
      if srows = [] then sampleLoop db fmtDate origSql errMsg rest
      else
        ⟨formatDatesInData fmtDate srows, none,
          "SELECT * FROM " ++ valueToString (getField tableRow "table_name") ++
            " LIMIT 100",
          none, true,
          some ("Could not execute original query. Showing sample data from " ++
            valueToString (getField tableRow "table_name") ++ " instead.")⟩

/-- The last-resort branch: list up to 10 public tables and sample them in
turn; a failing listing query is caught and yields the final failure
record. -/
def lastResort (db : String → Except String (List Row))
    (fmtDate : String → Option String) (origSql errMsg : String) : ExecResult :=
  match db tablesQuery with
  | Except.error _ => finalFailResult origSql errMsg
  | Except.ok trows => sampleLoop db fmtDate origSql errMsg trows

/-- The related-tables loop of the first fallback:
`relatedData[tables[i]] = tableResult.rows` for each further table whose
simple query succeeds (also when it returns no rows); a failing query is
caught and skipped. -/
def gatherRelated (db : String → Except String (List Row)) :
    List String → List (String × List Row) → List (String × List Row)
  | [], acc => acc
  | t :: rest, acc =>
    match db ("SELECT * FROM " ++ t ++ " LIMIT 1000") with
    | Except.ok rows => gatherRelated db rest (setAssoc acc t rows)
    | Except.error _ => gatherRelated db rest acc

/-- The record returned when the primary-table fallback succeeds without
related data. -/
def simpleOkResult (fmtDate : String → Option String) (primaryTable : String)
    (rows : List Row) : ExecResult :=
  ⟨formatDatesInData fmtDate rows, none,
    "SELECT * FROM " ++ primaryTable ++ " LIMIT 1000", none, true, none⟩

/-- The record returned when the primary-table fallback succeeds and
related data was gathered: the rows are enriched by
`performRelatedQueries` and formatted. -/
def withRelatedResult (db : String → Except String (List Row))
    (fmtDate : String → Option String) (primaryTable : String)
    (rows : List Row) (ms : MinimalSchema) : ExecResult :=
  ⟨formatDatesInData fmtDate
      (performRelatedQueries db rows ms.tables ms.relationships).1,
    some (performRelatedQueries db rows ms.tables ms.relationships).2,
    "SELECT * FROM " ++ primaryTable ++ " LIMIT 1000", none, true, none⟩

/-- `executeSqlWithFallback(sql, userPrompt, minimalSchema, sendUpdate)`:
run the original query (`executeSqlNonBlocking`, which formats dates); on
failure fall back to the first `FROM`/`JOIN` table, optionally enriching
with the further tables; then to sampling any public table; and finally
to the empty failure record.  `userPrompt` is unused by the source
body. -/
def executeSqlWithFallback (db : String → Except String (List Row))
    (fmtDate : String → Option String) (sql userPrompt : String)
    (ms : MinimalSchema) : ExecResult :=
  match db sql with
  | Except.ok rows => ⟨formatDatesInData fmtDate rows, none, sql, none, false, none⟩
  | Except.error errMsg =>
    match extractSqlTables sql with
    | [] => lastResort db fmtDate sql errMsg
    | primaryTable :: restTables =>
      match db ("SELECT * FROM " ++ primaryTable ++ " LIMIT 1000") with
      | Except.error _ => lastResort db fmtDate sql errMsg
      | Except.ok rows =>
        if rows = [] then lastResort db fmtDate sql errMsg
        else if restTables = [] then simpleOkResult fmtDate primaryTable rows
        else if gatherRelated db restTables [] = [] then
          simpleOkResult fmtDate primaryTable rows
        else withRelatedResult db fmtDate primaryTable rows ms

/-! ## Data-enrichment stages over a heap (DataEnrichmentService /
AnalyticsService)

The three stages receive arrays of JS row objects and mutate objects in
place, so rows are modelled behind a heap: a `Store` maps addresses to
row objects, the input array is a list of addresses, and each stage
places its deep copy `JSON.parse(JSON.stringify(data))` at consecutive
fresh addresses starting at `fresh`.  The `Date` validity test of the
consistency pass is the parameter `dateOk`. -/

/-- A heap of row objects. -/
abbrev Store : Type := ℕ → Row

/-- Heap update. -/
def updStore (σ : Store) (a : ℕ) (r : Row) : Store :=
  fun x => if x = a then r else σ x

/-- One row through `JSON.parse(JSON.stringify(row))`: `NaN` serializes
as `null`; the other scalar values round-trip unchanged. -/
def jsonRoundTripRow (r : Row) : Row :=
  r.map (fun kv => (kv.1, match kv.2 with | Value.nan => Value.null | v => v))

/-- The deep copy `JSON.parse(JSON.stringify(data))`, placing the copied
rows at consecutive fresh addresses starting at `i`: returns the updated
store and the address list of the copy. -/
def copyArrayGo : List ℕ → ℕ → Store → Store × List ℕ
  | [], _, σ => (σ, [])
  | a :: as, i, σ =>
    ((copyArrayGo as (i + 1) (updStore σ i (jsonRoundTripRow (σ a)))).1,
      i :: (copyArrayGo as (i + 1) (updStore σ i (jsonRoundTripRow (σ a)))).2)

/-- The deep copy of the rows at `addrs`, placed at `fresh, fresh+1, …`. -/
def copyArray (addrs : List ℕ) (fresh : ℕ) (σ : Store) : Store × List ℕ :=
  copyArrayGo addrs fresh σ

/-- In-place per-row transformation of the rows at `addrs`. -/
def writeRows (f : Row → Row) (addrs : List ℕ) (σ : Store) : Store :=
  addrs.foldl (fun s a => updStore s a (f (s a))) σ

/-- `baseColumnName.replace(/y$/, "ies")`. -/
def yToIes (s : String) : String :=
  if endsWithS "y" s then String.mk (s.data.take (s.data.length - 1)) ++ "ies"
  else s

/-- JS strict equality `===` on scalar values (`NaN === NaN` is false). -/
def jsStrictEqV : Value → Value → Bool
  | Value.nan, _ => false
  | _, Value.nan => false
  | a, b => a = b

/-- `r.id === fkValue || r[column] === fkValue`; `fkValue` is known to be
neither `null` nor `undefined` at the call site, so an absent property is
strictly equal to nothing. -/
def fkMatches (column : String) (fkValue : Value) (r : Row) : Bool :=
  (match getField r "id" with
   | some v => jsStrictEqV v fkValue
   | none => false) ||
  (match getField r column with
   | some v => jsStrictEqV v fkValue
   | none => false)

/-- The priority order of descriptive fields. -/
def priorityFields : List String :=
  ["name", "title", "label", "description", "code", "username", "email"]

/-- `findDescriptiveField(record)`: the first priority field holding a
truthy string with non-blank trim, else the first non-id key holding a
string with non-blank trim. -/
def findDescriptiveField (record : Row) : Option String :=
  match priorityFields.find? (fun f =>
      match getField record f with
      | some (Value.str s) => s ≠ "" && trimS s ≠ ""
      | _ => false) with
  | some f => some f
  | none =>
    (record.find? (fun kv =>
      !(endsWithS "_id" kv.1) && !(endsWithS "Id" kv.1) && kv.1 ≠ "id" &&
        (match kv.2 with
         | Value.str s => trimS s ≠ ""
         | _ => false))).map (·.1)

/-- The relatedData loop for one foreign-key column of one row: each
related table whose lower-cased name is a plausible pluralization of the
column's base name may contribute a `base_name` field. -/
def enrichColStep (relatedData : List (String × List Row)) (column : String)
    (r : Row) : Row :=
  if endsWithS "_id" column || endsWithS "Id" column then
    match getField r column with
    | none => r
    | some Value.null => r
    | some fkValue =>
      relatedData.foldl (fun r2 entry =>
        if lowerStr entry.1 ∈
            [stripIdSuffixes column, stripIdSuffixes column ++ "s",
              stripIdSuffixes column ++ "es", yToIes (stripIdSuffixes column)] then
          match entry.2.find? (fun r3 => fkMatches column fkValue r3) with
          | some relatedRecord =>
            match findDescriptiveField relatedRecord with
            | some f =>
              match getField relatedRecord f with
              | some v => setField r2 (stripIdSuffixes column ++ "_name") v
              | none => r2
            | none => r2
          | none => r2
        else r2) r
  else r

/-- One row of `enrichDataWithRelatedInfo`: iterate over the row's keys
(snapshotted before the writes, which only add new `_name` keys). -/
def enrichRowRelated (relatedData : List (String × List Row)) (row : Row) :
    Row :=
  (row.map (·.1)).foldl (fun r column => enrichColStep relatedData column r) row

/-- `enrichDataWithRelatedInfo(primaryData, relatedData)` over the heap:
without rows or related data the input array itself is returned;
otherwise the deep copy is placed at fresh addresses and enriched row by
row in place. -/
def enrichDataWithRelatedInfoS (σ : Store) (addrs : List ℕ)
    (relatedData : List (String × List Row)) (fresh : ℕ) : Store × List ℕ :=
  if addrs = [] ∨ relatedData = [] then (σ, addrs)
  else
    (writeRows (enrichRowRelated relatedData) (copyArray addrs fresh σ).2
        (copyArray addrs fresh σ).1,
      (copyArray addrs fresh σ).2)

/-- Column metadata produced by `ensureDataConsistency`. -/
structure ColMeta : Type where
  type : String
  format : String
  isId : Bool
  isName : Bool
  displayName : String
deriving DecidableEq, Repr

/-- `column.toLowerCase().includes(pat)`. -/
def colNameHas (col : String) (pat : String) : Bool :=
  isInfixL pat.data (lowerStr col).data

/-- The shape `/^\d{4}-\d{2}-\d{2}/`. -/
def isoDateShape : List (Char → Bool) :=
  [isDigitChar, isDigitChar, isDigitChar, isDigitChar, (· = '-'),
   isDigitChar, isDigitChar, (· = '-'), isDigitChar, isDigitChar]

/-- The shape `/^\d{2}\/\d{2}\/\d{4}/`. -/
def mdyDateShape : List (Char → Bool) :=
  [isDigitChar, isDigitChar, (· = '/'), isDigitChar, isDigitChar,
   (· = '/'), isDigitChar, isDigitChar, isDigitChar, isDigitChar]

/-- Counts of the value classes seen in a column (`typeCounts`). -/
structure TypeCounts : Type where
  nNumber : ℕ
  nString : ℕ
  nBoolean : ℕ
  nDate : ℕ
  nNull : ℕ
deriving DecidableEq, Repr

/-- Classify one value of a column; `dateOk` abstracts
`!isNaN(new Date(value).getTime())`.  `NaN` has JS type `number`. -/
def countValue (dateOk : String → Bool) (mightBeDate : Bool)
    (tc : TypeCounts) : Option Value → TypeCounts
  | none => ⟨tc.nNumber, tc.nString, tc.nBoolean, tc.nDate, tc.nNull + 1⟩
  | some Value.null => ⟨tc.nNumber, tc.nString, tc.nBoolean, tc.nDate, tc.nNull + 1⟩
  | some (Value.num _) => ⟨tc.nNumber + 1, tc.nString, tc.nBoolean, tc.nDate, tc.nNull⟩
  | some Value.nan => ⟨tc.nNumber + 1, tc.nString, tc.nBoolean, tc.nDate, tc.nNull⟩
  | some (Value.bool _) => ⟨tc.nNumber, tc.nString, tc.nBoolean + 1, tc.nDate, tc.nNull⟩
  | some (Value.str s) =>
    if mightBeDate && (shapeTest isoDateShape s.data || shapeTest mdyDateShape s.data) then
      if dateOk s then ⟨tc.nNumber, tc.nString, tc.nBoolean, tc.nDate + 1, tc.nNull⟩
      else ⟨tc.nNumber, tc.nString + 1, tc.nBoolean, tc.nDate, tc.nNull⟩
    else if (parseFloatStr s).isSome && trimS s ≠ "" then
      ⟨tc.nNumber + 1, tc.nString, tc.nBoolean, tc.nDate, tc.nNull⟩
    else ⟨tc.nNumber, tc.nString + 1, tc.nBoolean, tc.nDate, tc.nNull⟩

/-- The first pass over one column: count value classes over all rows. -/
def columnTypeCounts (dateOk : String → Bool) (rows : List Row) (col : String) :
    TypeCounts :=
  rows.foldl (fun tc row =>
    countValue dateOk
      (colNameHas col "date" || colNameHas col "time" ||
        colNameHas col "created" || colNameHas col "updated")
      tc (getField row col)) ⟨0, 0, 0, 0, 0⟩

/-- The most common type: fold over `Object.entries(typeCounts)` in
insertion order with strict improvement over a maximum starting at
`("string", 0)`; the `null` entry is skipped. -/
def mostCommonType (tc : TypeCounts) : String :=
  (([("number", tc.nNumber), ("string", tc.nString), ("boolean", tc.nBoolean),
      ("date", tc.nDate)] : List (String × ℕ)).foldl
    (fun best p => if p.2 > best.2 then p else best) ("string", 0)).1

/-- `Number.isInteger(parseFloat(value))` on a non-null, non-string
value: `parseFloat` coerces its argument to a string first, so only a
number with zero fractional part qualifies. -/
def isIntegerValue : Value → Bool
  | Value.num q => q.den = 1
  | _ => false

/-- The integer scan of the format pass: any non-null, non-string value
that is not an integer makes the column "decimal". -/
def columnIsInteger (rows : List Row) (col : String) : Bool :=
  rows.all (fun row =>
    match getField row col with
    | none => true
    | some Value.null => true
    | some (Value.str _) => true
    | some v => isIntegerValue v)

/-- The format stored in `columnFormats` for a column of inferred type
`ty` (`none`: no entry). -/
def columnFormat (rows : List Row) (col : String) (ty : String) :
    Option String :=
  if ty = "number" then
    if colNameHas col "price" || colNameHas col "cost" ||
        colNameHas col "amount" || colNameHas col "total" then some "currency"
    else if colNameHas col "percent" || colNameHas col "rate" then some "percent"
    else some (if columnIsInteger rows col then "integer" else "decimal")
  else if ty = "date" then some "date"
  else none

/-- The entry of `columnTypes` for a column (`none` for the skipped
`_name`/`Name` columns). -/
def columnTypeOf (dateOk : String → Bool) (rows : List Row) (col : String) :
    Option String :=
  if endsWithS "_name" col || endsWithS "Name" col then none
  else some (mostCommonType (columnTypeCounts dateOk rows col))

/-- Uppercase the first character (`/^./` with an uppercasing replacer;
`toUpper` is the identity on the characters `.` does not match). -/
def upFirst : List Char → List Char
  | [] => []
  | c :: cs => Char.toUpper c :: cs

/-- `column.replace(/_/g, " ").replace(/([A-Z])/g, " $1")
.replace(/^./, s => s.toUpperCase()).trim()`. -/
def displayNameOf (col : String) : String :=
  trimS (String.mk (upFirst
    ((col.data.map (fun c => if c = '_' then ' ' else c)).flatMap
      (fun c => if 'A' ≤ c && c ≤ 'Z' then [' ', c] else [c]))))

/-- The metadata record for one column. -/
def columnMetaOf (dateOk : String → Bool) (rows : List Row) (col : String) :
    ColMeta :=
  ⟨(columnTypeOf dateOk rows col).getD "string",
    ((columnTypeOf dateOk rows col).bind (fun ty => columnFormat rows col ty)).getD "text",
    endsWithS "_id" col || endsWithS "Id" col || col = "id",
    endsWithS "_name" col || endsWithS "Name" col,
    displayNameOf col⟩

/-- The `columnMetadata` object: one record per column of the first
copied row. -/
def consistencyMetadata (dateOk : String → Bool) (rows : List Row) :
    List (String × ColMeta) :=
  ((rows.headD []).map (·.1)).map (fun col => (col, columnMetaOf dateOk rows col))

/-- `ensureDataConsistency(data, schema)` over the heap: empty input
returns `{data: [], metadata: {}}`; otherwise the result is the deep
copy placed at fresh addresses, together with the column metadata, which
is computed from the copy by pure reads (the pass performs no write
after the copy).  The `schema` argument is unused by the source body and
its catch is unreachable. -/
def ensureDataConsistencyS (dateOk : String → Bool) (σ : Store)
    (addrs : List ℕ) (fresh : ℕ) : Store × List ℕ × List (String × ColMeta) :=
  if addrs = [] then (σ, [], [])
  else
    ((copyArray addrs fresh σ).1, (copyArray addrs fresh σ).2,
      consistencyMetadata dateOk
        ((copyArray addrs fresh σ).2.map (copyArray addrs fresh σ).1))

/-- `Number(x)` coercion of a scalar (`undefined` and `NaN` give `NaN`,
modelled as `none`). -/
def toNumberV : Option Value → Option ℚ
  | none => none
  | some Value.null => some 0
  | some Value.nan => none
  | some (Value.num q) => some q
  | some (Value.bool b) => some (cond b 1 0)
  | some (Value.str s) => strToNumber s

/-- JS subtraction: both operands coerced with `Number`; a `NaN` operand
gives `NaN`. -/
def jsSubV (a b : Value) : Value :=
  match toNumberV (some a), toNumberV (some b) with
  | some x, some y => Value.num (x - y)
  | _, _ => Value.nan

/-- JS division by a divisor known to be a positive number at the call
site. -/
def jsDivV (a : Value) (d : ℚ) : Value :=
  match toNumberV (some a) with
  | some x => Value.num (x / d)
  | none => Value.nan

/-- `typeof v === "number"` (true for `NaN`). -/
def isNumTypeV : Value → Bool
  | Value.num _ => true
  | Value.nan => true
  | _ => false

/-- The aggregate body for one field of one row: when the row has the
field and the mean is number-typed, write `field_vs_mean`, and when the
standard deviation is a positive number also `field_z_score`. -/
def enrichRowCalcStep (r : Row) (field : String) (agg : Row) : Row :=
  match getField r field with
  | none => r
  | some rv =>
    match getField agg "mean" with
    | some mv =>
      if isNumTypeV mv then
        match getField agg "stdDev" with
        | some (Value.num sd) =>
          if sd > 0 then
            setField (setField r (field ++ "_vs_mean") (jsSubV rv mv))
              (field ++ "_z_score") (jsDivV (jsSubV rv mv) sd)
          else setField r (field ++ "_vs_mean") (jsSubV rv mv)
        | _ => setField r (field ++ "_vs_mean") (jsSubV rv mv)
      else r
    | none => r

/-- One row of the aggregate loop: fold over
`Object.entries(calculationResults.aggregates)`. -/
def enrichRowCalc (aggs : List (String × Row)) (row : Row) : Row :=
  aggs.foldl (fun r fa => enrichRowCalcStep r fa.1 fa.2) row

/-- Calculation results: an association of result groups; the
`aggregates` group maps each field to its statistics row. -/
abbrev CalcResults : Type := List (String × List (String × Row))

/-- Assoc-list lookup (JS property read on a plain object). -/
def lookupAssoc {β : Type} (m : List (String × β)) (k : String) : Option β :=
  (m.find? (fun kv => kv.1 = k)).map (·.2)

/-- `enrichDataWithCalculations(data, calculationResults)` over the heap:
returns the input when either argument is empty; otherwise the deep copy
at fresh addresses, with the per-row aggregate comparisons written in
place when an `aggregates` group is present.  The `calculationResults`
property attached to the copy lives on the array object, not on any row,
and is not represented; the catch is unreachable since every step is
total. -/
def enrichDataWithCalculationsS (σ : Store) (addrs : List ℕ)
    (calcResults : CalcResults) (fresh : ℕ) : Store × List ℕ :=
  if calcResults = [] ∨ addrs = [] then (σ, addrs)
  else
    match lookupAssoc calcResults "aggregates" with
    | none => ((copyArray addrs fresh σ).1, (copyArray addrs fresh σ).2)
    | some aggs =>
      (writeRows (enrichRowCalc aggs) (copyArray addrs fresh σ).2
          (copyArray addrs fresh σ).1,
        (copyArray addrs fresh σ).2)

/-- Concrete heap for the C9 witness: one row at address 0. -/
def wStore : Store := fun n => if n = 0 then [("a", Value.num 1)] else []

/-- Concrete related data for the C9 witness. -/
def wRelated : List (String × List Row) :=
  [("things", [[("id", Value.num 1), ("name", Value.str "x")]])]

/-- Concrete calculation results for the C9 witness. -/
def wCalc : CalcResults :=
  [("aggregates", [("a", [("mean", Value.num 2), ("stdDev", Value.num 1)])])]

/-! # Theorems -/

/-! ## C1 lemmas -/

theorem findKeywordSuffix_keywordAt :
    ∀ s t : List Char, findKeywordSuffix s = some t → keywordAt t = true := by
  intro s
  induction s with
  | nil => intro t h; simp [findKeywordSuffix] at h
  | cons c cs ih =>
    intro t h
    by_cases hk : keywordAt (c :: cs) = true
    · simp [findKeywordSuffix, hk] at h
      exact h ▸ hk
    · simp [findKeywordSuffix, hk] at h
      exact ih t h

theorem isWsChar_toLower {c : Char} (h : isWsChar c = true) : Char.toLower c = c := by
  simp only [isWsChar, Bool.or_eq_true, decide_eq_true_eq] at h
  rcases h with ((((rfl | rfl) | rfl) | rfl) | rfl) | rfl <;> decide

theorem not_ws_of_toLower_eq {k c : Char} (hk : isWsChar k = false)
    (h : Char.toLower c = k) : isWsChar c = false := by
  cases hx : isWsChar c
  · rfl
  · rw [isWsChar_toLower hx] at h
    subst h
    rw [hk] at hx
    exact hx.symm

theorem ciPrefixAt_dropTrailingWs :
    ∀ (kw s : List Char), (∀ k ∈ kw, isWsChar k = false) →
      ciPrefixAt kw s = true → ciPrefixAt kw (dropTrailingWs s) = true := by
  intro kw
  induction kw with
  | nil => intro s _ _; simp [ciPrefixAt]
  | cons k ks ih =>
    intro s hws h
    cases s with
    | nil => simp [ciPrefixAt] at h
    | cons c cs =>
      simp only [ciPrefixAt, Bool.and_eq_true, decide_eq_true_eq] at h
      have hcws : isWsChar c = false :=
        not_ws_of_toLower_eq (hws k (List.mem_cons_self k ks)) h.1
      have hrest := ih cs (fun x hx => hws x (List.mem_cons_of_mem k hx)) h.2
      simp only [dropTrailingWs, hcws, Bool.and_false, Bool.false_eq_true, if_false]
      simp only [ciPrefixAt, Bool.and_eq_true, decide_eq_true_eq]
      exact ⟨h.1, hrest⟩

theorem ciPrefixAt_trimL (kw s : List Char)
    (hws : ∀ k ∈ kw, isWsChar k = false)
    (h : ciPrefixAt kw s = true) : ciPrefixAt kw (trimL s) = true := by
  cases kw with
  | nil => simp [ciPrefixAt]
  | cons k ks =>
    cases s with
    | nil => simp [ciPrefixAt] at h
    | cons c cs =>
      have h' := h
      simp only [ciPrefixAt, Bool.and_eq_true, decide_eq_true_eq] at h'
      have hcws : isWsChar c = false :=
        not_ws_of_toLower_eq (hws k (List.mem_cons_self k ks)) h'.1
      unfold trimL
      rw [List.dropWhile_cons, hcws]
      simp only [Bool.false_eq_true, if_false]
      exact ciPrefixAt_dropTrailingWs (k :: ks) (c :: cs) hws h

/-! ## C1 — main theorems -/

/-- C1 (amended): `cleanSQLResponse` applied to any LLM response text
returns the empty string when the response is empty; for every non-empty
response, the returned string (which is already trimmed) starts,
case-insensitively, with one of `SELECT`, `WITH`, `INSERT`, `UPDATE`,
`DELETE` — the extraction regex accepts all five keywords, not only
`SELECT`/`WITH`. -/
theorem cleanSQLResponse_starts_with_sql_keyword (r : String) :
    (r = "" → cleanSQLResponse r = "") ∧
    (r ≠ "" →
      sqlKeywords.any (fun kw => ciPrefixAt kw (trimS (cleanSQLResponse r)).data) = true) := by
  constructor
  · intro h
    subst h
    rfl
  · intro hr
    have hdata : r.data ≠ [] := by
      intro hd
      apply hr
      cases r with
      | mk d =>
        have hd' : d = [] := hd
        cases hd'
        rfl
    unfold cleanSQLResponse
    rw [if_neg hdata]
    split
    case _ suf heq =>
      have hkw : keywordAt suf = true := findKeywordSuffix_keywordAt _ suf heq
      simp only [keywordAt, List.any_eq_true] at hkw
      obtain ⟨kw, hmem, hpre⟩ := hkw
      have hws : ∀ k ∈ kw, isWsChar k = false := by
        have hall : ∀ kw0 ∈ sqlKeywords, ∀ k ∈ kw0, isWsChar k = false := by decide
        exact hall kw hmem
      have h1 : ciPrefixAt kw (trimL suf) = true := ciPrefixAt_trimL kw suf hws hpre
      have h2 : ciPrefixAt kw (trimL (trimL suf)) = true := ciPrefixAt_trimL kw _ hws h1
      simp only [List.any_eq_true]
      exact ⟨kw, hmem, by simpa [trimS] using h2⟩
    case _ heq => decide

/-- C1 witness: the amended theorem applied to a garbage response with no
SQL keyword; the result is the fixed default query, which starts with
`SELECT`. -/
theorem cleanSQLResponse_starts_with_sql_keyword_witness :
    ("The answer is 42" : String) ≠ "" ∧
    sqlKeywords.any
      (fun kw => ciPrefixAt kw (trimS (cleanSQLResponse "The answer is 42")).data) = true :=
  ⟨by decide, (cleanSQLResponse_starts_with_sql_keyword "The answer is 42").2 (by decide)⟩

/-- C1 counterexample: on the response `"DELETE FROM users"` the cleaner
returns `"DELETE FROM users"`, whose trimmed form starts with neither
`SELECT` nor `WITH` (case-insensitively), refuting the claim that every
cleaned response starts with `SELECT` or `WITH`. -/
theorem cleanSQLResponse_delete_counterexample :
    cleanSQLResponse "DELETE FROM users" = "DELETE FROM users" ∧
    startsWithCI "select" (trimS (cleanSQLResponse "DELETE FROM users")) = false ∧
    startsWithCI "with" (trimS (cleanSQLResponse "DELETE FROM users")) = false :=
  ⟨by decide, by decide, by decide⟩

/-! ## C10 — main theorem -/

/-- C10: for every knowledge-base state and every prompt,
`findSimilarQueries` returns at most 3 entries, sorted in non-increasing
order of similarity, and every returned entry has similarity strictly
greater than `0.3`. -/
theorem findSimilarQueries_spec (kb : List KBEntry) (p : String) :
    (findSimilarQueries kb p).length ≤ 3 ∧
    List.Pairwise (fun a b : KBEntry × ℚ => b.2 ≤ a.2) (findSimilarQueries kb p) ∧
    ∀ x ∈ findSimilarQueries kb p, (3 : ℚ)/10 < x.2 := by
  refine ⟨List.length_take_le 3 _, ?_, ?_⟩
  · have hs : List.Sorted simDescRel
        (List.insertionSort simDescRel
          ((kb.map (fun e => (e, similarityScore p e.userPrompt))).filter
            (fun x => decide ((3 : ℚ)/10 < x.2)))) :=
      List.sorted_insertionSort simDescRel _
    exact List.Pairwise.sublist (List.take_sublist 3 _) hs
  · intro x hx
    have hx1 := List.take_subset 3 _ hx
    have hx2 := (List.perm_insertionSort simDescRel _).mem_iff.mp hx1
    have := List.of_mem_filter hx2
    exact of_decide_eq_true this

/-! ## C7 — main theorem -/

/-- C7: `detectOutliers`, when given fewer than 4 rows or a field with
fewer than 4 numeric values, returns an empty outlier list and the
original data unchanged as `normalData`. -/
theorem detectOutliers_small_input (data : List Row) (field : String)
    (h : data.length < 4 ∨ (numericValues data field).length < 4) :
    detectOutliers data field = ⟨[], data, none, none⟩ := by
  unfold detectOutliers
  rcases h with h | h
  · rw [if_pos h]
  · by_cases hd : data.length < 4
    · rw [if_pos hd]
    · rw [if_neg hd, if_pos h]

/-- C7 witness: three rows (fewer than 4) are returned unchanged with no
outliers. -/
theorem detectOutliers_small_input_witness :
    ([[("x", Value.num 1)], [("x", Value.num 2)], [("x", Value.num 100)]].length < 4 ∨
      (numericValues [[("x", Value.num 1)], [("x", Value.num 2)], [("x", Value.num 100)]]
        "x").length < 4) ∧
    detectOutliers [[("x", Value.num 1)], [("x", Value.num 2)], [("x", Value.num 100)]] "x" =
      ⟨[], [[("x", Value.num 1)], [("x", Value.num 2)], [("x", Value.num 100)]], none, none⟩ :=
  ⟨Or.inl (by decide),
    detectOutliers_small_input _ "x" (Or.inl (by decide))⟩

/-! ## C8 — main theorem -/

/-- C8: whenever `detectTrend` produces a full result, the trend label is
`"stable"` exactly when `|slope| < 0.01`; otherwise the label is strong
versus slight increase/decrease according to whether `|slope|` exceeds
`0.1`; and the percent change never divides by zero: when the first value
of the time-sorted series is `0` it is `100` if the last value is non-zero
and `0` otherwise. -/
theorem detectTrend_classification (dateMs : Option Value → ℚ) (data : List Row)
    (valueField timeField : String) (t : String) (s f l c : ℚ)
    (h : detectTrend dateMs data valueField timeField = TrendResult.result t s f l c) :
    (t = "stable" ↔ |s| < 1/100) ∧
    (1/100 ≤ |s| →
      (0 < s → t = if 1/10 < s then "strong increase" else "slight increase") ∧
      (s < 0 → t = if s < -(1/10) then "strong decrease" else "slight decrease")) ∧
    (f = 0 → c = if l ≠ 0 then 100 else 0) ∧
    (f ≠ 0 → c = (l - f) / f * 100) := by
  unfold detectTrend at h
  split at h
  · exact absurd h (by simp)
  · split at h
    · exact absurd h (by simp)
    · injection h with ht hs hf hl hc
      rw [hs] at ht
      rw [hf, hl] at hc
      constructor
      · constructor
        · intro hstable
          rw [hstable] at ht
          by_contra habs
          unfold trendLabel at ht
          rw [if_neg habs] at ht
          split at ht
          · split at ht <;> simp_all
          · split at ht <;> simp_all
        · intro hlt
          rw [← ht]
          unfold trendLabel
          rw [if_pos hlt]
      refine ⟨?_, ?_, ?_⟩
      · intro hge
        have hns : ¬ |s| < 1/100 := not_lt.mpr hge
        constructor
        · intro hpos
          rw [← ht]
          unfold trendLabel
          rw [if_neg hns, if_pos hpos]
        · intro hneg
          rw [← ht]
          unfold trendLabel
          rw [if_neg hns, if_neg (not_lt.mpr (le_of_lt hneg))]
      · intro hf0
        rw [← hc]
        unfold changePercentOf
        simp [hf0]
      · intro hf0
        rw [← hc]
        unfold changePercentOf
        rw [if_pos hf0]

/-- C8 witness: the series `1, 2, 3` yields slope `1`, label
`"strong increase"`, and a `200`% change; the classification theorem
applies to it. -/
theorem detectTrend_classification_witness :
    detectTrend (fun _ => 0)
        [[("v", Value.num 1)], [("v", Value.num 2)], [("v", Value.num 3)]] "v" "t" =
      TrendResult.result "strong increase" 1 1 3 200 ∧
    (("strong increase" : String) = "stable" ↔ |(1 : ℚ)| < 1/100) := by
  have hval : trendValues (fun _ => 0)
      [[("v", Value.num 1)], [("v", Value.num 2)], [("v", Value.num 3)]] "v" "t" = [1, 2, 3] := by
    norm_num [trendValues, sortByKey, insertByKey, parseFloatField, getField, parseFloatVal,
      List.find?, List.filterMap]
  have hdt : detectTrend (fun _ => 0)
      [[("v", Value.num 1)], [("v", Value.num 2)], [("v", Value.num 3)]] "v" "t" =
      TrendResult.result "strong increase" 1 1 3 200 := by
    unfold detectTrend
    rw [hval]
    norm_num [slopeOf, trendLabel, changePercentOf, List.enum, List.enumFrom, List.range,
      List.range.loop, abs]
  exact ⟨hdt,
    (detectTrend_classification (fun _ => 0)
      [[("v", Value.num 1)], [("v", Value.num 2)], [("v", Value.num 3)]] "v" "t"
      "strong increase" 1 1 3 200 hdt).1⟩

/-! ## C6 lemmas -/

/-- Symmetry of a correlation matrix. -/
def CorrSymm (m : CorrMatrix) : Prop := ∀ x y, m x y = m y x

theorem corrStep_symm {m : CorrMatrix} (sc : List ℚ → List ℚ → Option ℚ)
    (data : List Row) (p : String × String) (hm : CorrSymm m) :
    CorrSymm (corrStep sc data m p) := by
  intro x y
  unfold corrStep updEntry
  by_cases hA : x = p.2 ∧ y = p.1
  · rw [if_pos hA]
    by_cases hA' : y = p.2 ∧ x = p.1
    · rw [if_pos hA']
    · rw [if_neg hA', if_pos ⟨hA.2, hA.1⟩]
  · rw [if_neg hA]
    by_cases hB : x = p.1 ∧ y = p.2
    · rw [if_pos hB, if_pos ⟨hB.2, hB.1⟩]
    · rw [if_neg hB, if_neg (fun hh : y = p.2 ∧ x = p.1 => hB ⟨hh.2, hh.1⟩),
        if_neg (fun hh : y = p.1 ∧ x = p.2 => hA ⟨hh.2, hh.1⟩)]
      exact hm x y

theorem corrFold_symm (sc : List ℚ → List ℚ → Option ℚ) (data : List Row) :
    ∀ (ps : List (String × String)) (m : CorrMatrix), CorrSymm m →
      CorrSymm (ps.foldl (corrStep sc data) m) := by
  intro ps
  induction ps with
  | nil => intro m hm; exact hm
  | cons p ps ih =>
    intro m hm
    exact ih _ (corrStep_symm sc data p hm)

theorem corrInnerFold_apply (f1 : String) (v : String → String → Option ℚ) :
    ∀ (F : List String) (m : CorrMatrix) (x y : String),
      (F.foldl (fun m2 f2 => updEntry m2 f1 f2 (v f1 f2)) m) x y =
        if x = f1 ∧ y ∈ F then v f1 y else m x y := by
  intro F
  induction F with
  | nil => intro m x y; simp
  | cons a F ih =>
    intro m x y
    rw [List.foldl_cons, ih]
    by_cases hy : y ∈ F
    · by_cases hx : x = f1 <;> simp [updEntry, hx, hy]
    · by_cases hx : x = f1 <;> by_cases hya : y = a <;>
        simp [updEntry, hx, hy, hya]

theorem corrInit_apply (fields : List String) (x y : String) :
    corrInit fields x y =
      if x ∈ fields ∧ y ∈ fields then (if x = y then some 1 else none) else none := by
  unfold corrInit
  have : ∀ (F : List String) (m : CorrMatrix),
      (F.foldl
        (fun m f1 =>
          fields.foldl (fun m2 f2 => updEntry m2 f1 f2 (if f1 = f2 then some 1 else none)) m)
        m) x y =
      if x ∈ F ∧ y ∈ fields then (if x = y then some 1 else none) else m x y := by
    intro F
    induction F with
    | nil => intro m; simp
    | cons a F ih =>
      intro m
      rw [List.foldl_cons, ih]
      rw [corrInnerFold_apply a (fun f1 f2 => if f1 = f2 then some 1 else none)]
      by_cases hx : x ∈ F
      · by_cases hy : y ∈ fields <;> simp [hx, hy]
      · by_cases hy : y ∈ fields <;> by_cases hxa : x = a <;>
          simp [hx, hy, hxa, eq_comm]
  rw [this fields (fun _ _ => none)]

theorem corrPairs_ne {fields : List String} (h : fields.Nodup) :
    ∀ p ∈ corrPairs fields, p.1 ≠ p.2 := by
  induction fields with
  | nil => intro p hp; simp [corrPairs] at hp
  | cons f rest ih =>
    intro p hp
    rw [List.nodup_cons] at h
    simp only [corrPairs, List.mem_append, List.mem_map] at hp
    rcases hp with ⟨g, hg, rfl⟩ | hp
    · intro hfg
      have hfg' : f = g := hfg
      exact h.1 (hfg' ▸ hg)
    · exact ih h.2 p hp

theorem corrFold_diag (sc : List ℚ → List ℚ → Option ℚ) (data : List Row) :
    ∀ (ps : List (String × String)) (m : CorrMatrix),
      (∀ p ∈ ps, p.1 ≠ p.2) → ∀ f, (ps.foldl (corrStep sc data) m) f f = m f f := by
  intro ps
  induction ps with
  | nil => intro m _ f; rfl
  | cons p ps ih =>
    intro m hne f
    rw [List.foldl_cons, ih _ (fun q hq => hne q (List.mem_cons_of_mem p hq))]
    have hp := hne p (List.mem_cons_self p ps)
    unfold corrStep updEntry
    have h1 : ¬(f = p.2 ∧ f = p.1) := fun ⟨ha, hb⟩ => hp (hb ▸ ha ▸ rfl)
    have h2 : ¬(f = p.1 ∧ f = p.2) := fun ⟨ha, hb⟩ => hp (ha ▸ hb ▸ rfl)
    rw [if_neg h1, if_neg h2]

/-! ## C6 — main theorems -/

/-- C6 (amended): in every matrix returned by `calculateCorrelationMatrix`,
the entry for `(A, B)` equals the entry for `(B, A)` for all field names;
and, provided the requested field list contains no duplicate names, every
diagonal entry for a requested field equals `1`. -/
theorem calculateCorrelationMatrix_symm_diag (sc : List ℚ → List ℚ → Option ℚ)
    (data : List Row) (fields : List String) (M : CorrMatrix)
    (h : calculateCorrelationMatrix sc data fields = some M) :
    (∀ A B, M A B = M B A) ∧
    (fields.Nodup → ∀ A ∈ fields, M A A = some 1) := by
  unfold calculateCorrelationMatrix at h
  split at h
  · exact absurd h (by simp)
  · injection h with hM
    constructor
    · intro A B
      rw [← hM]
      have hinit : CorrSymm (corrInit fields) := by
        intro x y
        rw [corrInit_apply, corrInit_apply]
        by_cases hx : x ∈ fields <;> by_cases hy : y ∈ fields <;>
          simp [hx, hy, eq_comm]
      exact corrFold_symm sc data (corrPairs fields) (corrInit fields) hinit A B
    · intro hnd A hA
      rw [← hM]
      rw [corrFold_diag sc data (corrPairs fields) (corrInit fields) (corrPairs_ne hnd) A]
      rw [corrInit_apply]
      simp [hA]

/-- C6 witness: on a one-row data set and distinct fields `a`, `b`, the
returned matrix is symmetric at `(a, b)` and has `1` on the diagonal. -/
theorem calculateCorrelationMatrix_symm_diag_witness :
    ∃ M, calculateCorrelationMatrix (fun _ _ => some 0) [[("a", Value.num 1)]] ["a", "b"] =
        some M ∧ M "a" "b" = M "b" "a" ∧ M "a" "a" = some 1 := by
  obtain ⟨hsym, hdiag⟩ := calculateCorrelationMatrix_symm_diag (fun _ _ => some 0)
    [[("a", Value.num 1)]] ["a", "b"] _ rfl
  exact ⟨_, rfl, hsym "a" "b", hdiag (by decide) "a" (by decide)⟩

/-- C6 counterexample: with the duplicated field list `["a", "a"]` and a
two-row data set, the pairwise loop overwrites the diagonal entry
`matrix["a"]["a"]` with the correlation of `a` with itself, which is
`null` because fewer than 3 rows are available — so a diagonal entry of a
returned matrix is not `1`. -/
theorem calculateCorrelationMatrix_diag_counterexample :
    (calculateCorrelationMatrix (fun _ _ => some 0)
        [[("a", Value.num 1)], [("a", Value.num 2)]] ["a", "a"]).map
      (fun M => M "a" "a") = some none := by
  rfl

/-! ## C3 — main theorem -/

/-- C3: `retryWithBackoff` retries only on rate-limit errors — a
non-rate-limit first error is rethrown immediately with no delay; on a
run of rate-limit errors it waits `1000 * 2^(attempt+1) + jitter` before
each retry, for at most 3 retries, succeeding as soon as the operation
does; after exhausting the 3 retries on rate-limit errors it raises the
distinct rate-limit-exceeded error, whose message no immediately-rethrown
(non-rate-limit) error can carry. -/
theorem retryWithBackoff_spec {α : Type} (op : ℕ → Except JsError α) (jitter : ℕ → ℚ) :
    (∀ e, op 0 = Except.error e → isRateLimitB e = false →
      retryWithBackoff op jitter = ([], Except.error e)) ∧
    ((∀ k, k ≤ 3 → ∃ e, op k = Except.error e ∧ isRateLimitB e = true) →
      retryWithBackoff op jitter =
        ([1000 * 2 ^ 1 + jitter 0, 1000 * 2 ^ 2 + jitter 1, 1000 * 2 ^ 3 + jitter 2],
          Except.error rlExceededErr)) ∧
    (∀ k v, k ≤ 3 → (∀ j, j < k → ∃ e, op j = Except.error e ∧ isRateLimitB e = true) →
      op k = Except.ok v →
      retryWithBackoff op jitter =
        ((List.range k).map (fun j => 1000 * 2 ^ (j + 1) + jitter j), Except.ok v)) ∧
    (∀ e, isRateLimitB e = false → e.message ≠ rlExceededErr.message) := by
  refine ⟨?_, ?_, ?_, ?_⟩
  · intro e he hrl
    simp [retryWithBackoff, retryAux, he, hrl]
  · intro h
    obtain ⟨e0, he0, hrl0⟩ := h 0 (by omega)
    obtain ⟨e1, he1, hrl1⟩ := h 1 (by omega)
    obtain ⟨e2, he2, hrl2⟩ := h 2 (by omega)
    obtain ⟨e3, he3, hrl3⟩ := h 3 (by omega)
    simp [retryWithBackoff, retryAux, he0, he1, he2, he3, hrl0, hrl1, hrl2, hrl3]
  · intro k v hk hj hok
    interval_cases k
    · simp [retryWithBackoff, retryAux, hok]
    · obtain ⟨e0, he0, hrl0⟩ := hj 0 (by omega)
      simp [retryWithBackoff, retryAux, he0, hrl0, hok, List.range_succ]
    · obtain ⟨e0, he0, hrl0⟩ := hj 0 (by omega)
      obtain ⟨e1, he1, hrl1⟩ := hj 1 (by omega)
      simp [retryWithBackoff, retryAux, he0, hrl0, he1, hrl1, hok, List.range_succ]
    · obtain ⟨e0, he0, hrl0⟩ := hj 0 (by omega)
      obtain ⟨e1, he1, hrl1⟩ := hj 1 (by omega)
      obtain ⟨e2, he2, hrl2⟩ := hj 2 (by omega)
      simp [retryWithBackoff, retryAux, he0, hrl0, he1, hrl1, he2, hrl2, hok,
        List.range_succ]
  · intro e hrl heq
    have hsub : isInfixL "rate limit".data e.message.data = true := by
      rw [heq]
      decide
    simp [isRateLimitB, hsub] at hrl

/-- C3 witness: an operation that always fails with HTTP 429 exhausts the
3 retries with delays `2000 + j`, `4000 + j`, `8000 + j` (jitter `j = 7`
here) and raises the distinct rate-limit-exceeded error. -/
theorem retryWithBackoff_spec_witness :
    retryWithBackoff (fun _ => (Except.error ⟨some 429, "boom"⟩ : Except JsError ℕ))
        (fun _ => (7 : ℚ)) =
      ([1000 * 2 ^ 1 + 7, 1000 * 2 ^ 2 + 7, 1000 * 2 ^ 3 + 7], Except.error rlExceededErr) :=
  (retryWithBackoff_spec (fun _ => (Except.error ⟨some 429, "boom"⟩ : Except JsError ℕ))
    (fun _ => (7 : ℚ))).2.1
    (fun k _ => ⟨⟨some 429, "boom"⟩, rfl, by decide⟩)

/-! ## C5 lemmas -/

theorem mem_jsSetGo {α : Type} [DecidableEq α] :
    ∀ (l seen : List α) (x : α), x ∈ jsSetGo seen l → x ∈ l := by
  intro l
  induction l with
  | nil => intro seen x hx; simp [jsSetGo] at hx
  | cons a t ih =>
    intro seen x hx
    unfold jsSetGo at hx
    split at hx
    · exact List.mem_cons_of_mem a (ih seen x hx)
    · rcases List.mem_cons.mp hx with h1 | hx'
      · exact List.mem_cons.mpr (Or.inl h1)
      · exact List.mem_cons_of_mem a (ih (a :: seen) x hx')

theorem jsSetList_subset {α : Type} [DecidableEq α] (l : List α) (x : α) :
    x ∈ jsSetList l → x ∈ l :=
  mem_jsSetGo l [] x

theorem paTables_subset (pa : Option (List Value)) (schemas : List String) :
    ∀ t ∈ paTables pa schemas, t ∈ schemas := by
  intro t ht
  cases pa with
  | none => simp [paTables] at ht
  | some tables =>
    unfold paTables at ht
    have := List.mem_filter.mp ht
    exact of_decide_eq_true this.2

theorem identifyRelevantTables_subset (llm : String → Except String String)
    (userPrompt : String) (schemas : List String) (l : List String)
    (h : identifyRelevantTables llm userPrompt schemas = Except.ok l) :
    ∀ t ∈ l, t ∈ schemas := by
  intro t ht
  unfold identifyRelevantTables at h
  cases hllm : llm (tableIdentificationPrompt userPrompt schemas) with
  | error e => rw [hllm] at h; exact absurd h (by simp)
  | ok response =>
    rw [hllm] at h
    injection h with hl
    rw [← hl] at ht
    have := (List.mem_filter.mp ht).2
    simp only [Bool.and_eq_true, decide_eq_true_eq] at this
    exact this.2

theorem identifyTablesWithAI_subset (llm : String → Except String String)
    (jsonParse : String → Except String (List Value)) (userPrompt : String)
    (schemas : List String) :
    ∀ t ∈ identifyTablesWithAI llm jsonParse userPrompt schemas, t ∈ schemas := by
  intro t ht
  unfold identifyTablesWithAI at ht
  split at ht
  · simp at ht
  · split at ht
    · simp at ht
    · split at ht
      · simp at ht
      · obtain ⟨v, _, hv⟩ := List.mem_filterMap.mp ht
        cases v with
        | str s =>
          simp only at hv
          by_cases hmem : s ∈ schemas
          · rw [if_pos hmem] at hv
            injection hv with hv2
            exact hv2 ▸ hmem
          · rw [if_neg hmem] at hv
            exact absurd hv (by simp)
        | null => simp at hv
        | nan => simp at hv
        | num q => simp at hv
        | bool b => simp at hv

theorem extractTableNamesFromPrompt_subset (userPrompt : String) (schemas : List String) :
    ∀ t ∈ extractTableNamesFromPrompt userPrompt schemas, t ∈ schemas := by
  intro t ht
  exact (List.mem_filter.mp ht).1

/-! ## C5 — main theorem -/

/-- C5: for every prompt, every non-empty schema, and any behaviour of the
LLM-based strategies, `identifyRelevantTablesParallel` returns a non-empty
list of table names each of which is a key of the schema; and when the
prompt analysis and all three strategies yield nothing it falls back to
the first table of the schema. -/
theorem identifyRelevantTablesParallel_spec (llm : String → Except String String)
    (jsonParse : String → Except String (List Value)) (userPrompt : String)
    (schemas : List String) (pa : Option (List Value)) (h : schemas ≠ []) :
    (identifyRelevantTablesParallel llm jsonParse userPrompt schemas pa ≠ [] ∧
      ∀ t ∈ identifyRelevantTablesParallel llm jsonParse userPrompt schemas pa,
        t ∈ schemas) ∧
    (paTables pa schemas = [] →
      identifyRelevantTables llm userPrompt schemas = Except.ok [] →
      identifyTablesWithAI llm jsonParse userPrompt schemas = [] →
      extractTableNamesFromPrompt userPrompt schemas = [] →
      identifyRelevantTablesParallel llm jsonParse userPrompt schemas pa =
        [schemas.head h]) := by
  cases schemas with
  | nil => exact absurd rfl h
  | cons t0 rest =>
    by_cases hpa : paTables pa (t0 :: rest) = []
    · cases hA1 : identifyRelevantTables llm userPrompt (t0 :: rest) with
      | error e =>
        have hR : identifyRelevantTablesParallel llm jsonParse userPrompt (t0 :: rest) pa =
            [t0] := by
          unfold identifyRelevantTablesParallel
          rw [if_neg (by simp [hpa]), hA1]
        rw [hR]
        refine ⟨⟨by simp, ?_⟩, ?_⟩
        · intro t ht
          rw [List.mem_singleton.mp ht]
          exact List.mem_cons_self t0 rest
        · intro _ h2 _ _
          exact absurd h2 (by simp)
      | ok l1 =>
        by_cases hu : jsSetList (l1 ++
            identifyTablesWithAI llm jsonParse userPrompt (t0 :: rest) ++
              extractTableNamesFromPrompt userPrompt (t0 :: rest)) = []
        · have hR : identifyRelevantTablesParallel llm jsonParse userPrompt (t0 :: rest) pa =
              [t0] := by
            unfold identifyRelevantTablesParallel
            rw [if_neg (by simp [hpa]), hA1]
            simp only []
            rw [if_neg (fun hn => hn hu)]
          rw [hR]
          refine ⟨⟨by simp, ?_⟩, ?_⟩
          · intro t ht
            rw [List.mem_singleton.mp ht]
            exact List.mem_cons_self t0 rest
          · intro _ _ _ _
            rfl
        · have hR : identifyRelevantTablesParallel llm jsonParse userPrompt (t0 :: rest) pa =
              jsSetList (l1 ++
                identifyTablesWithAI llm jsonParse userPrompt (t0 :: rest) ++
                  extractTableNamesFromPrompt userPrompt (t0 :: rest)) := by
            unfold identifyRelevantTablesParallel
            rw [if_neg (by simp [hpa]), hA1]
            simp only []
            rw [if_pos hu]
          rw [hR]
          refine ⟨⟨hu, ?_⟩, ?_⟩
          · intro t ht
            have hmem := jsSetList_subset _ t ht
            rcases List.mem_append.mp hmem with h12 | h3
            · rcases List.mem_append.mp h12 with h1 | h2
              · exact identifyRelevantTables_subset llm userPrompt _ l1 hA1 t h1
              · exact identifyTablesWithAI_subset llm jsonParse userPrompt _ t h2
            · exact extractTableNamesFromPrompt_subset userPrompt _ t h3
          · intro _ h2 h3 h4
            injection h2 with hl1
            rw [hl1, h3, h4] at hu
            exact absurd rfl hu
    · have hR : identifyRelevantTablesParallel llm jsonParse userPrompt (t0 :: rest) pa =
          paTables pa (t0 :: rest) := by
        unfold identifyRelevantTablesParallel
        rw [if_pos hpa]
      rw [hR]
      exact ⟨⟨hpa, fun t ht => paTables_subset pa _ t ht⟩,
        fun h1 _ _ _ => absurd h1 hpa⟩

/-- C5 witness: with an LLM stub returning the empty string, a JSON parser
stub that always fails, a prompt mentioning no table, and the one-table
schema `["users"]`, all strategies yield nothing and the resolver returns
`["users"]`, a non-empty subset of the schema keys. -/
theorem identifyRelevantTablesParallel_spec_witness :
    identifyRelevantTablesParallel (fun _ => Except.ok "")
        (fun _ => Except.error "parse error") "zzz" ["users"] none = ["users"] :=
  (identifyRelevantTablesParallel_spec (fun _ => Except.ok "")
      (fun _ => Except.error "parse error") "zzz" ["users"] none (by decide)).2
    (by decide) rfl (by decide) (by decide)
/-! ## C4 lemmas -/

theorem chunkEventsF_toSpec (total : ℕ) :
    ∀ (n : ℕ) (l : List Json) (k : ℕ), l.length ≤ n →
      chunkEventsF total n l k =
        (List.range ((l.length + 99) / 100)).map (fun j =>
          [("rawDataChunk", Json.arr ((l.drop (100 * j)).take 100)),
            ("chunkIndex", Json.num (k + j)), ("totalChunks", Json.num total)]) := by
  intro n
  induction n with
  | zero =>
    intro l k hl
    have hnil : l = [] := List.length_eq_zero.mp (Nat.le_zero.mp hl)
    subst hnil
    simp [chunkEventsF]
  | succ m ih =>
    intro l k hl
    cases l with
    | nil => simp [chunkEventsF]
    | cons x xs =>
      rw [chunkEventsF]
      rw [ih ((x :: xs).drop 100) (k + 1)
        (by rw [List.length_drop]; simp only [List.length_cons] at hl ⊢; omega)]
      have hceil : ((x :: xs).length + 99) / 100 = (((x :: xs).drop 100).length + 99) / 100 + 1 := by
        rw [List.length_drop]
        simp only [List.length_cons]
        omega
      rw [hceil, List.range_succ_eq_map, List.map_cons, List.map_map]
      congr 1
      · simp
      · apply List.map_congr_left
        intro j hj
        simp only [Function.comp_apply, List.drop_drop]
        have h1 : 100 + 100 * j = 100 * Nat.succ j := by omega
        rw [h1]
        have h2 : ((k + 1 : ℕ) : ℚ) + (j : ℚ) = (k : ℚ) + ((Nat.succ j : ℕ) : ℚ) := by
          push_cast
          ring
        rw [h2]
      · simp

/-! ## C4 — main theorems -/

/-- C4 (amended): a result whose serialized length is below 50,000 is
emitted as one event; above the threshold, when `rawData` is a non-empty
array the dispatcher emits the metadata event (with `rawData` emptied and
`rawDataPending` set), one event per consecutive 100-row slice with
`chunkIndex`/`totalChunks = ceil(rowCount/100)`, and the final
`{rawDataComplete, rowCount}` event; but when `rawData` is absent or
empty, only the single metadata event — equal to the input, with no
pending flag, no chunks and no completion marker — is emitted. -/
theorem chunkJsonData_spec (data : List (String × Json)) :
    (jsonLen (Json.obj data) < 50000 → chunkJsonData data = [data]) ∧
    (50000 ≤ jsonLen (Json.obj data) →
      (∀ l, rawDataList data = some l → l ≠ [] →
        chunkJsonData data =
          setJField (setJField data "rawData" (Json.arr [])) "rawDataPending"
              (Json.bool true) ::
            (specChunkEvents l ++
              [[("rawDataComplete", Json.bool true), ("rowCount", Json.num l.length)]])) ∧
      ((rawDataList data = none ∨ rawDataList data = some []) →
        chunkJsonData data = [data])) := by
  refine ⟨?_, fun h => ⟨?_, ?_⟩⟩
  · intro h
    unfold chunkJsonData
    rw [if_pos h]
  · intro l hl hne
    unfold chunkJsonData
    rw [if_neg (not_lt.mpr h), hl]
    simp only []
    rw [if_pos (List.length_pos.mpr hne)]
    congr 2
    rw [chunkEventsF_toSpec ((l.length + 99) / 100) l.length l 0 le_rfl]
    unfold specChunkEvents
    apply List.map_congr_left
    intro j _
    simp
  · intro hcase
    unfold chunkJsonData
    rw [if_neg (not_lt.mpr h)]
    rcases hcase with hc | hc
    · rw [hc]
    · rw [hc]
      simp

/-! ## C4 — serialized-length lemmas for the concrete inputs -/

def bigAString : String :=
  String.mk (List.replicate 50000 'a')

theorem escStr_replicate_a (n : ℕ) :
    (escStr (String.mk (List.replicate n 'a'))).length = n := by
  induction n with
  | zero => rfl
  | succ m ih =>
    simp only [List.replicate_succ, escStr] at ih ⊢
    simp only [List.foldr_cons, List.length_append, ih]
    have h : escChar 'a' = ['a'] := by decide
    rw [h]
    simp only [List.length_singleton]
    omega

theorem escStr_bigA_length : (escStr bigAString).length = 50000 :=
  escStr_replicate_a 50000

theorem stringifyArr_replicate_null (n : ℕ) :
    (stringifyArr (List.replicate (n + 1) Json.null)).length = 5 * (n + 1) - 1 := by
  induction n with
  | zero =>
    simp [stringifyArr, stringifyJ]
  | succ m ih =>
    rw [List.replicate_succ, List.replicate_succ]
    rw [stringifyArr]
    rw [← List.replicate_succ]
    have h4 : (stringifyJ Json.null).length = 4 := by simp [stringifyJ]
    simp only [List.length_append, List.length_cons, ih, h4]
    omega

theorem strJ_length (s : String) :
    (stringifyJ (Json.str s)).length = (escStr s).length + 2 := by
  simp only [stringifyJ, List.length_cons, List.length_append, List.length_singleton,
    List.length_nil]

theorem arrJ_length (l : List Json) :
    (stringifyJ (Json.arr l)).length = (stringifyArr l).length + 2 := by
  simp only [stringifyJ, List.length_cons, List.length_append, List.length_singleton,
    List.length_nil]

theorem jsonLen_two_field_obj (k1 k2 : String) (v1 v2 : Json) :
    jsonLen (Json.obj [(k1, v1), (k2, v2)]) =
      (escStr k1).length + (escStr k2).length +
        (stringifyJ v1).length + (stringifyJ v2).length + 9 := by
  simp only [jsonLen, stringifyJ, stringifyObj, List.length_cons, List.length_append, List.length_nil]
  omega

theorem counterexample_len :
    jsonLen (Json.obj [("rawData", Json.arr []), ("report", Json.str bigAString)]) = 50026 := by
  rw [jsonLen_two_field_obj]
  have h1 : (escStr "rawData").length = 7 := by decide
  have h2 : (escStr "report").length = 6 := by decide
  have h3 : (stringifyJ (Json.arr ([] : List Json))).length = 2 := by
    simp [stringifyJ, stringifyArr]
  have h4 : (stringifyJ (Json.str bigAString)).length = 50002 := by
    rw [strJ_length, escStr_bigA_length]
  rw [h1, h2, h3, h4]

theorem witness_len :
    jsonLen (Json.obj [("rawData", Json.arr (List.replicate 250 Json.null)),
      ("report", Json.str bigAString)]) = 51275 := by
  rw [jsonLen_two_field_obj]
  have h1 : (escStr "rawData").length = 7 := by decide
  have h2 : (escStr "report").length = 6 := by decide
  have h3 : (stringifyJ (Json.arr (List.replicate 250 Json.null))).length = 1251 := by
    rw [arrJ_length]
    have := stringifyArr_replicate_null 249
    norm_num at this
    rw [this]
  have h4 : (stringifyJ (Json.str bigAString)).length = 50002 := by
    rw [strJ_length, escStr_bigA_length]
  rw [h1, h2, h3, h4]

/-- C4 counterexample: a result whose `rawData` is the empty array but
whose serialization exceeds 50,000 characters (a 50,000-character report
string) is emitted as one single event equal to the input — with no
`rawDataPending` flag, no chunk events and no `rawDataComplete` marker —
refuting the claim that every above-threshold result is decomposed into
metadata + chunks + completion marker. -/
theorem chunkJsonData_single_event_counterexample :
    50000 ≤ jsonLen (Json.obj [("rawData", Json.arr []), ("report", Json.str bigAString)]) ∧
    chunkJsonData [("rawData", Json.arr []), ("report", Json.str bigAString)] =
      [[("rawData", Json.arr []), ("report", Json.str bigAString)]] ∧
    chunkJsonData [("rawData", Json.arr []), ("report", Json.str bigAString)] ≠
      setJField (setJField [("rawData", Json.arr []), ("report", Json.str bigAString)] "rawData"
            (Json.arr [])) "rawDataPending" (Json.bool true) ::
        (specChunkEvents [] ++
          [[("rawDataComplete", Json.bool true), ("rowCount", Json.num 0)]]) := by
  have hlen := counterexample_len
  have hsingle : chunkJsonData [("rawData", Json.arr []), ("report", Json.str bigAString)] =
      [[("rawData", Json.arr []), ("report", Json.str bigAString)]] := by
    unfold chunkJsonData
    rw [hlen]
    rw [if_neg (by norm_num)]
    rw [show rawDataList [("rawData", Json.arr []), ("report", Json.str bigAString)] =
      some [] from rfl]
    simp
  refine ⟨by rw [hlen]; norm_num, hsingle, ?_⟩
  rw [hsingle]
  intro h
  have hlength := congrArg List.length h
  simp [specChunkEvents] at hlength

/-- C4 witness: a 250-row `rawData` whose serialization exceeds the
threshold yields the metadata event followed by exactly 3 chunk events of
100, 100 and 50 rows (`chunkIndex` 0, 1, 2, `totalChunks` 3) and the
`rawDataComplete` marker. -/
theorem chunkJsonData_spec_witness :
    chunkJsonData [("rawData", Json.arr (List.replicate 250 Json.null)),
        ("report", Json.str bigAString)] =
      setJField (setJField [("rawData", Json.arr (List.replicate 250 Json.null)),
            ("report", Json.str bigAString)] "rawData" (Json.arr []))
          "rawDataPending" (Json.bool true) ::
        (specChunkEvents (List.replicate 250 Json.null) ++
          [[("rawDataComplete", Json.bool true), ("rowCount", Json.num 250)]]) ∧
    specChunkEvents (List.replicate 250 Json.null) =
      [[("rawDataChunk", Json.arr (List.replicate 100 Json.null)), ("chunkIndex", Json.num 0),
          ("totalChunks", Json.num 3)],
        [("rawDataChunk", Json.arr (List.replicate 100 Json.null)), ("chunkIndex", Json.num 1),
          ("totalChunks", Json.num 3)],
        [("rawDataChunk", Json.arr (List.replicate 50 Json.null)), ("chunkIndex", Json.num 2),
          ("totalChunks", Json.num 3)]] := by
  constructor
  · have h := ((chunkJsonData_spec [("rawData", Json.arr (List.replicate 250 Json.null)),
        ("report", Json.str bigAString)]).2
        (by rw [witness_len]; norm_num)).1 (List.replicate 250 Json.null) rfl
        (by
          intro hh
          have h0 := congrArg List.length hh
          rw [List.length_replicate, List.length_nil] at h0
          exact absurd h0 (by norm_num))
    simp only [List.length_replicate, Nat.cast_ofNat] at h
    exact h
  · have hr : List.range 3 = [0, 1, 2] := by decide
    unfold specChunkEvents
    rw [List.length_replicate]
    have h3 : (250 + 99) / 100 = 3 := by norm_num
    rw [h3, hr]
    simp only [List.map_cons, List.map_nil, List.drop_replicate, List.take_replicate]
    norm_num
theorem sampleLoop_error (db : String → Except String (List Row))
    (fmtDate : String → Option String) (origSql errMsg : String)
    (trows : List Row) (e : String)
    (h : (sampleLoop db fmtDate origSql errMsg trows).error = some e) :
    sampleLoop db fmtDate origSql errMsg trows = finalFailResult origSql errMsg := by
  induction trows with
  | nil => rfl
  | cons tableRow rest ih =>
    rw [sampleLoop] at h ⊢
    cases hq : db ("SELECT * FROM " ++ valueToString (getField tableRow "table_name") ++
        " LIMIT 100") with
    | error msg =>
      simp only [hq] at h ⊢
      exact ih h
    | ok srows =>
      simp only [hq] at h ⊢
      by_cases hs : srows = []
      · rw [if_pos hs] at h ⊢
        exact ih h
      · rw [if_neg hs] at h
        simp at h

theorem lastResort_error (db : String → Except String (List Row))
    (fmtDate : String → Option String) (origSql errMsg : String) (e : String)
    (h : (lastResort db fmtDate origSql errMsg).error = some e) :
    lastResort db fmtDate origSql errMsg = finalFailResult origSql errMsg := by
  rw [lastResort] at h ⊢
  cases hq : db tablesQuery with
  | error msg => rfl
  | ok trows =>
    rw [hq] at h
    exact sampleLoop_error db fmtDate origSql errMsg trows e h

theorem execFallback_error_shape (db : String → Except String (List Row))
    (fmtDate : String → Option String) (sql userPrompt : String)
    (ms : MinimalSchema) (e : String)
    (h : (executeSqlWithFallback db fmtDate sql userPrompt ms).error = some e) :
    executeSqlWithFallback db fmtDate sql userPrompt ms = finalFailResult sql e := by
  rw [executeSqlWithFallback] at h ⊢
  cases hdb : db sql with
  | ok rows =>
    simp only [hdb] at h
    simp at h
  | error errMsg =>
    simp only [hdb] at h ⊢
    cases hT : extractSqlTables sql with
    | nil =>
      simp only [hT] at h ⊢
      have h2 := lastResort_error db fmtDate sql errMsg e h
      have h3 : errMsg = e := by
        rw [h2] at h
        simpa [finalFailResult] using h
      rw [h2, h3]
    | cons pT rT =>
      simp only [hT] at h ⊢
      cases hq : db ("SELECT * FROM " ++ pT ++ " LIMIT 1000") with
      | error m2 =>
        simp only [hq] at h ⊢
        have h2 := lastResort_error db fmtDate sql errMsg e h
        have h3 : errMsg = e := by
          rw [h2] at h
          simpa [finalFailResult] using h
        rw [h2, h3]
      | ok rows =>
        simp only [hq] at h ⊢
        by_cases hr : rows = []
        · rw [if_pos hr] at h ⊢
          have h2 := lastResort_error db fmtDate sql errMsg e h
          have h3 : errMsg = e := by
            rw [h2] at h
            simpa [finalFailResult] using h
          rw [h2, h3]
        · rw [if_neg hr] at h ⊢
          by_cases hrt : rT = []
          · rw [if_pos hrt] at h
            simp [simpleOkResult] at h
          · rw [if_neg hrt] at h ⊢
            by_cases hg : gatherRelated db rT [] = []
            · rw [if_pos hg] at h
              simp [simpleOkResult] at h
            · rw [if_neg hg] at h
              simp [withRelatedResult] at h

/-- C2: `executeSqlWithFallback` never raises, for any behaviour of the
database stub `db`: (1) when every database call throws with message
`errMsg`, it returns the degraded record `{data: [], sql, error: errMsg,
fallbackUsed: true, message: "Could not retrieve data. Please try a
different query."}`; (2) whenever the result carries an `error` field at
all — i.e. every fallback failed — its `data` is the empty list, its
`fallbackUsed` flag is true and it carries that explanatory message; and
(3) a successful original query returns its date-formatted rows with no
error and no fallback flag. -/
theorem executeSqlWithFallback_spec (db : String → Except String (List Row))
    (fmtDate : String → Option String) (sql userPrompt : String)
    (ms : MinimalSchema) :
    (∀ errMsg, (∀ q, db q = Except.error errMsg) →
      executeSqlWithFallback db fmtDate sql userPrompt ms =
        ⟨[], none, sql, some errMsg, true,
          some "Could not retrieve data. Please try a different query."⟩) ∧
    (∀ e, (executeSqlWithFallback db fmtDate sql userPrompt ms).error = some e →
      (executeSqlWithFallback db fmtDate sql userPrompt ms).data = [] ∧
      (executeSqlWithFallback db fmtDate sql userPrompt ms).fallbackUsed = true ∧
      (executeSqlWithFallback db fmtDate sql userPrompt ms).message =
        some "Could not retrieve data. Please try a different query.") ∧
    (∀ rows, db sql = Except.ok rows →
      executeSqlWithFallback db fmtDate sql userPrompt ms =
        ⟨formatDatesInData fmtDate rows, none, sql, none, false, none⟩) := by
  refine ⟨?_, ?_, ?_⟩
  · intro errMsg hall
    rw [executeSqlWithFallback]
    simp only [hall, lastResort]
    cases extractSqlTables sql <;> rfl
  · intro e he
    rw [execFallback_error_shape db fmtDate sql userPrompt ms e he]
    exact ⟨rfl, rfl, rfl⟩
  · intro rows hok
    rw [executeSqlWithFallback, hok]

/-- C2 witness: a database stub that always throws "boom" yields the
degraded empty record for a concrete query. -/
theorem executeSqlWithFallback_spec_witness :
    executeSqlWithFallback (fun _ => Except.error "boom") (fun _ => none)
        "SELECT x FROM nope" "" ⟨[], []⟩ =
      ⟨[], none, "SELECT x FROM nope", some "boom", true,
        some "Could not retrieve data. Please try a different query."⟩ :=
  (executeSqlWithFallback_spec (fun _ => Except.error "boom") (fun _ => none)
      "SELECT x FROM nope" "" ⟨[], []⟩).1 "boom" (fun _ => rfl)
theorem copyArrayGo_frame (as : List ℕ) (i x : ℕ) (σ : Store) (hx : x < i) :
    (copyArrayGo as i σ).1 x = σ x := by
  induction as generalizing i σ with
  | nil => rfl
  | cons a tl ih =>
    have h1 := ih (i + 1) (updStore σ i (jsonRoundTripRow (σ a)))
      (Nat.lt_succ_of_lt hx)
    calc (copyArrayGo (a :: tl) i σ).1 x
        = (copyArrayGo tl (i + 1) (updStore σ i (jsonRoundTripRow (σ a)))).1 x := rfl
      _ = updStore σ i (jsonRoundTripRow (σ a)) x := h1
      _ = σ x := by
          rw [updStore]
          exact if_neg (Nat.ne_of_lt hx)

theorem copyArrayGo_mem_ge (as : List ℕ) (i x : ℕ) (σ : Store)
    (hx : x ∈ (copyArrayGo as i σ).2) : i ≤ x := by
  induction as generalizing i σ with
  | nil => simp [copyArrayGo] at hx
  | cons a tl ih =>
    rw [copyArrayGo] at hx
    rcases List.mem_cons.mp hx with h1 | h1
    · exact h1.ge
    · exact Nat.le_of_succ_le (ih (i + 1) _ h1)

theorem writeRows_frame (f : Row → Row) (addrs : List ℕ) (σ : Store) (x : ℕ)
    (hx : x ∉ addrs) : writeRows f addrs σ x = σ x := by
  induction addrs generalizing σ with
  | nil => rfl
  | cons a tl ih =>
    have h1 : writeRows f (a :: tl) σ = writeRows f tl (updStore σ a (f (σ a))) := rfl
    rw [h1, ih _ (fun hm => hx (List.mem_cons.mpr (Or.inr hm)))]
    rw [updStore]
    exact if_neg (fun he => hx (List.mem_cons.mpr (Or.inl he)))

/-- C9: the three enrichment stages leave the input row array and every
row object in it unchanged — given any heap, any list of input row
addresses all below the fresh-address boundary, any related data and any
calculation results, the heap after `enrichDataWithRelatedInfo`,
`ensureDataConsistency` and `enrichDataWithCalculations` agrees with the
original heap on every input address: all writes go to the fresh deep
copy. -/
theorem enrichment_stages_frame (dateOk : String → Bool) (σ : Store)
    (addrs : List ℕ) (fresh : ℕ) (relatedData : List (String × List Row))
    (calcResults : CalcResults) (hfresh : ∀ a ∈ addrs, a < fresh) :
    (∀ a ∈ addrs, (enrichDataWithRelatedInfoS σ addrs relatedData fresh).1 a = σ a) ∧
    (∀ a ∈ addrs, (ensureDataConsistencyS dateOk σ addrs fresh).1 a = σ a) ∧
    (∀ a ∈ addrs, (enrichDataWithCalculationsS σ addrs calcResults fresh).1 a = σ a) := by
  have hcopy : ∀ a ∈ addrs, (copyArray addrs fresh σ).1 a = σ a :=
    fun a ha => copyArrayGo_frame addrs fresh a σ (hfresh a ha)
  have hnotmem : ∀ a ∈ addrs, a ∉ (copyArray addrs fresh σ).2 := by
    intro a ha hmem
    exact absurd (copyArrayGo_mem_ge addrs fresh a σ hmem)
      (Nat.not_le_of_lt (hfresh a ha))
  refine ⟨?_, ?_, ?_⟩
  · intro a ha
    rw [enrichDataWithRelatedInfoS]
    by_cases hc : addrs = [] ∨ relatedData = []
    · rw [if_pos hc]
    · rw [if_neg hc]
      show writeRows (enrichRowRelated relatedData) (copyArray addrs fresh σ).2
        (copyArray addrs fresh σ).1 a = σ a
      rw [writeRows_frame _ _ _ _ (hnotmem a ha)]
      exact hcopy a ha
  · intro a ha
    rw [ensureDataConsistencyS]
    by_cases hc : addrs = []
    · rw [if_pos hc]
    · rw [if_neg hc]
      exact hcopy a ha
  · intro a ha
    rw [enrichDataWithCalculationsS]
    by_cases hc : calcResults = [] ∨ addrs = []
    · rw [if_pos hc]
    · rw [if_neg hc]
      cases hl : lookupAssoc calcResults "aggregates" with
      | none => exact hcopy a ha
      | some aggs =>
        show writeRows (enrichRowCalc aggs) (copyArray addrs fresh σ).2
          (copyArray addrs fresh σ).1 a = σ a
        rw [writeRows_frame _ _ _ _ (hnotmem a ha)]
        exact hcopy a ha

/-- C9 witness: on a concrete one-row heap with non-trivial related data
and aggregates, all three stages leave the row at its input address
unchanged. -/
theorem enrichment_stages_frame_witness :
    (enrichDataWithRelatedInfoS wStore [0] wRelated 1).1 0 = wStore 0 ∧
    (ensureDataConsistencyS (fun _ => true) wStore [0] 1).1 0 = wStore 0 ∧
    (enrichDataWithCalculationsS wStore [0] wCalc 1).1 0 = wStore 0 :=
  ⟨(enrichment_stages_frame (fun _ => true) wStore [0] 1 wRelated wCalc
      (by simp)).1 0 (by simp),
   (enrichment_stages_frame (fun _ => true) wStore [0] 1 wRelated wCalc
      (by simp)).2.1 0 (by simp),
   (enrichment_stages_frame (fun _ => true) wStore [0] 1 wRelated wCalc
      (by simp)).2.2 0 (by simp)⟩
